import Mathlib

/-!
Shallow embedding of the comparison/diff engine of the inference-perf
dashboard (source file `api_utils.py`), together with proofs about it.

Conventions of the embedding:
* Python values that may be an int, a float or a string are modelled by
  `PyVal`; a possibly-absent dictionary entry is `Option PyVal` (with
  `none` for both a missing key and Python `None`).
* Python floats are modelled by exact rationals `ℚ`.  All concrete values
  appearing in the claims are exactly representable, so rounding and
  fixed-point formatting agree with CPython on them.
* Operations that can raise an uncaught Python exception are modelled in
  `Except PyErr`; exceptions that the source catches locally (for example
  `float(...)` inside `try/except`) are modelled by `Option` results.
* `datetime.timestamp()` of a naive datetime depends on the host timezone;
  the embedding fixes the timezone to UTC.
* String manipulation is implemented over `List Char` (`String.data`) so
  that every definition evaluates inside the kernel.
-/

/-- Uncaught Python exception kinds relevant to this code. -/
inductive PyErr where
  | keyError
  | typeError
  | valueError
deriving DecidableEq

/-- A dynamically typed Python scalar: int, float, or str. -/
inductive PyVal where
  | vInt (n : ℤ)
  | vFloat (q : ℚ)
  | vStr (s : String)
deriving DecidableEq

namespace PyVal

/-- Python truthiness of an optional value (`None`, `0`, `0.0`, `""` are falsy). -/
def truthy : Option PyVal → Bool
  | none => false
  | some (vInt n) => n ≠ 0
  | some (vFloat q) => q ≠ 0
  | some (vStr s) => s ≠ ""

/-- Membership in the source list `invalid_data = ["", "null", None]`,
tested with Python equality (an int or float never equals a string). -/
def isSentinel : Option PyVal → Bool
  | none => true
  | some (vStr s) => s = "" || s = "null"
  | some _ => false

/-- `isinstance(v, (int, float))` together with the numeric value. -/
def toNum : PyVal → Option ℚ
  | vInt n => some (n : ℚ)
  | vFloat q => some q
  | vStr _ => none

end PyVal

section CharHelpers

/-- Digit character of `n % 10`, written as an explicit table so that case
analysis on small numerals is easy. -/
def digitChar10 (n : ℕ) : Char :=
  if n = 0 then '0' else if n = 1 then '1' else if n = 2 then '2'
  else if n = 3 then '3' else if n = 4 then '4' else if n = 5 then '5'
  else if n = 6 then '6' else if n = 7 then '7' else if n = 8 then '8' else '9'

/-- Decimal digits of `n`, most significant first; fuel-structured so the
definition reduces inside the kernel. -/
def natDigitsCore : ℕ → ℕ → List Char
  | 0, _ => []
  | fuel + 1, n =>
    if n < 10 then [digitChar10 n]
    else natDigitsCore fuel (n / 10) ++ [digitChar10 (n % 10)]

def natDigits (n : ℕ) : List Char := natDigitsCore (n + 1) n

/-- Decimal rendering of a natural number (the same as Python `str`). -/
def natStr (n : ℕ) : String := String.mk (natDigits n)

/-- Decimal rendering of an integer (the same as Python `str`). -/
def zStr (z : ℤ) : String :=
  if z < 0 then String.mk ('-' :: natDigits z.natAbs) else natStr z.natAbs

/-- Numeric value of a digit character. -/
def digitVal (c : Char) : ℕ := c.toNat - 48

/-- Value of a list of decimal digit characters, most significant first. -/
def digitsToNat (l : List Char) : ℕ := l.foldl (fun a c => 10 * a + digitVal c) 0

/-- Whitespace characters removed by Python `str.strip()` (the common ones). -/
def isPySpace (c : Char) : Bool := c = ' ' || c = '\t' || c = '\n' || c = '\r'

/-- Python `str.strip()` over a character list. -/
def trimChars (l : List Char) : List Char :=
  ((l.dropWhile isPySpace).reverse.dropWhile isPySpace).reverse

/-- Python `str.split(sep)` for a one-character separator
(`"".split(",") == [""]`). -/
def splitChars (sep : Char) : List Char → List (List Char)
  | [] => [[]]
  | c :: rest =>
    let r := splitChars sep rest
    if c = sep then [] :: r
    else
      match r with
      | [] => [[c]]
      | g :: gs => (c :: g) :: gs

end CharHelpers

section NumberParsing

/-- Python `int(s)` on a string: optional surrounding whitespace, optional
sign, then decimal digits.  (Underscore digit grouping, accepted by CPython,
is not modelled; no string handled in this file contains one.) -/
def parseIntDigits (cs : List Char) : Option ℤ :=
  if cs ≠ [] ∧ cs.all Char.isDigit then some (digitsToNat cs) else none

def parseIntStr (s : String) : Option ℤ :=
  match trimChars s.data with
  | [] => none
  | c :: r =>
    if c = '-' then (parseIntDigits r).map (fun n => -n)
    else if c = '+' then parseIntDigits r
    else parseIntDigits (c :: r)

/-- Python `float(s)` on a string: optional whitespace and sign, digits with
an optional fractional part, and an optional decimal exponent.  (`inf`,
`nan` and underscore grouping are not modelled; in this code base a record
whose rate parses to a non-integral float is skipped either way.) -/
def parseFloatStr (s : String) : Option ℚ :=
  let cs0 := trimChars s.data
  let signSplit : Bool × List Char :=
    match cs0 with
    | c :: r => if c = '-' then (true, r) else if c = '+' then (false, r) else (false, cs0)
    | [] => (false, [])
  let neg := signSplit.1
  let ipRest := signSplit.2.span Char.isDigit
  let ip := ipRest.1
  let fpRest : List Char × List Char :=
    match ipRest.2 with
    | c :: r => if c = '.' then r.span Char.isDigit else ([], ipRest.2)
    | [] => ([], [])
  let fp := fpRest.1
  let rest := fpRest.2
  if ip = [] ∧ fp = [] then none
  else
    let mant : ℚ := (digitsToNat (ip ++ fp) : ℚ) / (10 : ℚ) ^ fp.length
    let signed : ℚ := if neg then -mant else mant
    match rest with
    | [] => some signed
    | c :: r =>
      if c = 'e' ∨ c = 'E' then
        (parseIntStr (String.mk r)).map (fun e =>
          if e ≥ 0 then signed * (10 : ℚ) ^ e.natAbs else signed / (10 : ℚ) ^ e.natAbs)
      else none

/-- Python `float(x)` where the source catches `ValueError`/`TypeError`:
`none` models the caught failure. -/
def pyFloatOf : PyVal → Option ℚ
  | .vInt n => some (n : ℚ)
  | .vFloat q => some q
  | .vStr s => parseFloatStr s

/-- Python `int(x)` truncation toward zero for a float value. -/
def truncQ (q : ℚ) : ℤ := q.num.sign * ((q.num.natAbs / q.den : ℕ) : ℤ)

/-- Round to the nearest integer, ties to even — the rounding used by both
Python `round` and `format` on exactly representable values. -/
def roundHalfEvenZ (q : ℚ) : ℤ :=
  let f := ⌊q⌋
  let r := q - (f : ℚ)
  if r < 1 / 2 then f
  else if r > 1 / 2 then f + 1
  else if f % 2 = 0 then f else f + 1

/-- Python `round(q, nd)`. -/
def roundQ (nd : ℕ) (q : ℚ) : ℚ := (roundHalfEvenZ (q * (10 : ℚ) ^ nd) : ℚ) / (10 : ℚ) ^ nd

/-- Left-pad a digit string with zeros to a given width. -/
def padZeros (width : ℕ) (n : ℕ) : String :=
  let d := natDigits n
  String.mk (List.replicate (width - d.length) '0' ++ d)

/-- Python fixed-point formatting `f"{q:.nd}f"` (sign, then the rounded
magnitude; matches CPython on exactly representable values). -/
def fmtFixed (nd : ℕ) (q : ℚ) : String :=
  let neg := q < 0
  let scaled := (roundHalfEvenZ (|q| * (10 : ℚ) ^ nd)).toNat
  let ip := natStr (scaled / 10 ^ nd)
  let core :=
    if nd = 0 then ip
    else ip ++ "." ++ padZeros nd (scaled % 10 ^ nd)
  if neg then "-" ++ core else core

/-- Python `str(x)`.  For floats the rendering uses the shortest fixed-point
expansion up to 17 digits; this agrees with CPython on every value this
code base formats. -/
def pyStr : PyVal → String
  | .vStr s => s
  | .vInt n => zStr n
  | .vFloat q =>
    if q.den = 1 then zStr q.num ++ ".0"
    else
      match (List.range 18).find? (fun k => (q * (10 : ℚ) ^ k).den = 1) with
      | some k => fmtFixed k q
      | none => fmtFixed 17 q

end NumberParsing

section DatetimeConversion

def isLeapYear (y : ℤ) : Bool := y % 4 = 0 && (y % 100 ≠ 0 || y % 400 = 0)

def daysInMonth (y m : ℤ) : ℤ :=
  if m = 2 then (if isLeapYear y then 29 else 28)
  else if m = 4 ∨ m = 6 ∨ m = 9 ∨ m = 11 then 30
  else 31

/-- Days from 1970-01-01 to the civil date `y-m-d` (proleptic Gregorian). -/
def daysFromCivil (y m d : ℤ) : ℤ :=
  let y' := y - (if m ≤ 2 then 1 else 0)
  let era := Int.ediv y' 400
  let yoe := y' - era * 400
  let mp := m + (if m > 2 then -3 else 9)
  let doy := Int.ediv (153 * mp + 2) 5 + d - 1
  let doe := yoe * 365 + Int.ediv yoe 4 - Int.ediv yoe 100 + doy
  era * 146097 + doe - 719468

/-- Civil date `(y, m, d)` of the day `z` days after 1970-01-01. -/
def civilFromDays (z : ℤ) : ℤ × ℤ × ℤ :=
  let z' := z + 719468
  let era := Int.ediv z' 146097
  let doe := z' - era * 146097
  let yoe := Int.ediv (doe - Int.ediv doe 1460 + Int.ediv doe 36524 - Int.ediv doe 146096) 365
  let y := yoe + era * 400
  let doy := doe - (365 * yoe + Int.ediv yoe 4 - Int.ediv yoe 100)
  let mp := Int.ediv (5 * doy + 2) 153
  let d := doy - Int.ediv (153 * mp + 2) 5 + 1
  let m := mp + (if mp < 10 then 3 else -9)
  (y + (if m ≤ 2 then 1 else 0), m, d)

/-- A run of decimal digits of bounded width, as matched by the regexes
CPython `strptime` compiles for `%Y` (exactly 4), `%m`, `%d`, `%H`, `%M`,
`%S` (1 or 2). -/
def parseDigitRun (minLen maxLen : ℕ) (l : List Char) : Option ℕ :=
  if l ≠ [] ∧ minLen ≤ l.length ∧ l.length ≤ maxLen ∧ l.all Char.isDigit
  then some (digitsToNat l) else none

/-- `datetime.strptime(s, "%Y-%m-%dT%H:%M:%S")` followed by
`int(dt.timestamp())` with the host timezone fixed to UTC.  `none` models
the `ValueError` that the source catches (bad shape, out-of-range field,
or an invalid day of month rejected by the datetime constructor). -/
def parseDatetimeStr (s : String) : Option ℤ :=
  match splitChars 'T' s.data with
  | [ds, ts] =>
    match splitChars '-' ds, splitChars ':' ts with
    | [ys, ms, dds], [hs, mis, ss] =>
      match parseDigitRun 4 4 ys, parseDigitRun 1 2 ms, parseDigitRun 1 2 dds,
            parseDigitRun 1 2 hs, parseDigitRun 1 2 mis, parseDigitRun 1 2 ss with
      | some y, some mo, some dd, some h, some mi, some sec =>
        if 1 ≤ y ∧ 1 ≤ mo ∧ mo ≤ 12 ∧ 1 ≤ dd ∧ (dd : ℤ) ≤ daysInMonth y mo ∧
            h ≤ 23 ∧ mi ≤ 59 ∧ sec ≤ 59 then
          some (daysFromCivil y mo dd * 86400 + h * 3600 + mi * 60 + sec)
        else none
      | _, _, _, _, _, _ => none
    | _, _ => none
  | _ => none

/-- `pd.Timestamp(t, unit="s").strftime("%Y-%m-%dT%H:%M:%S")` (UTC; defined
for the nonnegative-year range pandas can represent). -/
def epochToEsStr (t : ℤ) : String :=
  let days := Int.ediv t 86400
  let secs := (Int.emod t 86400).toNat
  let c := civilFromDays days
  padZeros 4 c.1.toNat ++ "-" ++ padZeros 2 c.2.1.toNat ++ "-" ++ padZeros 2 c.2.2.toNat ++
    "T" ++ padZeros 2 (secs / 3600) ++ ":" ++ padZeros 2 (secs % 3600 / 60) ++
    ":" ++ padZeros 2 (secs % 60)

end DatetimeConversion

set_option maxRecDepth 8000

section InputValidator

/-- The raw parameter bag passed to `check_input_params`.  The outer
`Option` distinguishes an absent dictionary key (`none`) from a key that is
present; the inner `Option` distinguishes Python `None` from a real value. -/
structure RawParams where
  startTime : Option (Option ℤ) := none
  endTime : Option (Option ℤ) := none
  models : Option (Option String) := none
  engineVersion : Option (Option ℤ) := none
  size : Option (Option ℤ) := none
deriving DecidableEq

/-- `ES_MAX_RESULT_SIZE = 10000`. -/
def ES_MAX_RESULT_SIZE : ℤ := 10000

/-- The normalized parameter dict built by `check_input_params`. -/
structure CheckedParams where
  startTime : ℤ
  endTime : ℤ
  models : List String
  engineVersion : ℤ
  size : ℤ
deriving DecidableEq

/-- `k not in params or params[k] is None`. -/
def keyMissing {α : Type} : Option (Option α) → Bool
  | none => true
  | some none => true
  | some (some _) => false

/-- The list of missing required keys, in `required_keys` order. -/
def missingKeys (p : RawParams) : List String :=
  (if keyMissing p.startTime then ["startTime"] else []) ++
  (if keyMissing p.endTime then ["endTime"] else []) ++
  (if keyMissing p.models then ["models"] else []) ++
  (if keyMissing p.engineVersion then ["engineVersion"] else [])

/-- `','.join(l)`. -/
def joinComma : List String → String
  | [] => ""
  | x :: xs => xs.foldl (fun a b => a ++ "," ++ b) x

/-- `[m.strip() for m in s.split(",") if m.strip()]`. -/
def splitModels (s : String) : List String :=
  ((splitChars ',' s.data).map (fun m => String.mk (trimChars m))).filter
    (fun m => m ≠ "")

/-- Embedding of `check_input_params` (api_utils.py lines 25-60).  The
result mirrors the Python triple `(ok, message, processed_params)`; the
`Except` layer carries the `KeyError` that `params["size"]` raises when the
`size` key is absent. -/
def check_input_params (params : RawParams) :
    Except PyErr (Bool × String × Option CheckedParams) :=
  if missingKeys params ≠ [] then
    .ok (false, "缺失必填参数：" ++ joinComma (missingKeys params), none)
  else
    match params.startTime, params.endTime, params.models, params.engineVersion with
    | some (some st), some (some et), some (some ms), some (some ev) =>
      if splitModels ms = [] then
        .ok (false, "models参数不可为空（或仅含分隔符）", none)
      else
        match params.size with
        | none => .error .keyError
        | some szv =>
          if ev ∉ ([0, 1, 2] : List ℤ) then
            .ok (false, "engineVersion无效：" ++ zStr ev ++ "，仅支持0/1/2", none)
          else if st > et then
            .ok (false, "时间范围无效：startTime > endTime", none)
          else if splitModels ms = [] then
            .ok (false, "models参数不可为空", none)
          else
            .ok (true, "", some ⟨st, et, splitModels ms, ev,
              match szv with
              | none => ES_MAX_RESULT_SIZE
              | some v => v⟩)
    | _, _, _, _ => .ok (false, "", none)  -- unreachable: all four keys present when missing = []

end InputValidator

section QueryBuilder

/-- One clause of the conjunctive store filter. -/
inductive EsClause where
  | terms (field : String) (values : List String)
  | term (field : String) (value : PyVal)
  | range (field : String) (gte lte : Option String)
deriving DecidableEq

/-- The query value returned by `build_es_query`: either a `bool/must`
conjunction or the `match_all` query. -/
inductive EsQuery where
  | boolMust (must : List EsClause)
  | matchAll
deriving DecidableEq

/-- Python truthiness of an optional integer (`None` and `0` are falsy). -/
def intTruthy : Option ℤ → Bool
  | some t => t ≠ 0
  | none => false

/-- Embedding of `build_es_query` (api_utils.py lines 63-99).  Note the
source tests each argument for Python truthiness, so an engine version of
`0` (or `""`) and a time bound of epoch `0` contribute no clause. -/
def build_es_query (model_names : Option (List String) := none)
    (engine_version : Option PyVal := none)
    (start_time : Option ℤ := none) (end_time : Option ℤ := none) : EsQuery :=
  let modelClauses : List EsClause :=
    match model_names with
    | some l => if l ≠ [] then [.terms "source.model_name" l] else []
    | none => []
  let engineClauses : List EsClause :=
    if PyVal.truthy engine_version then
      [.term "source.engine_version" (engine_version.getD (.vInt 0))]
    else []
  let rangeClauses : List EsClause :=
    if intTruthy start_time || intTruthy end_time then
      [.range "source.merged_at"
        (if intTruthy start_time then some (epochToEsStr (start_time.getD 0)) else none)
        (if intTruthy end_time then some (epochToEsStr (end_time.getD 0)) else none)]
    else []
  let must := modelClauses ++ engineClauses ++ rangeClauses
  if must ≠ [] then .boolMust must else .matchAll

/-- Membership of one clause in the built query. -/
def hasClause (q : EsQuery) (c : EsClause) : Prop :=
  match q with
  | .boolMust l => c ∈ l
  | .matchAll => False

end QueryBuilder

section ComparePipeline

/-- The nested `_source.source` document of one store hit.  Absent keys and
Python `None` are both `none` (`_safe_get` returns `None` for both).  A hit
whose source is not a dict behaves like the record with every field `none`. -/
structure Source where
  model_name : Option PyVal := none
  merged_at : Option PyVal := none
  request_rate : Option PyVal := none
  commit_id : Option PyVal := none
  tp : Option PyVal := none
  device : Option PyVal := none
  mean_e2el_ms : Option PyVal := none
  mean_itl_ms : Option PyVal := none
  mean_tpot_ms : Option PyVal := none
  mean_ttft_ms : Option PyVal := none
  p99_itl_ms : Option PyVal := none
  p99_tpot_ms : Option PyVal := none
  p99_ttft_ms : Option PyVal := none
  request_throughput : Option PyVal := none
  output_token_throughput : Option PyVal := none
  total_token_throughput : Option PyVal := none
deriving DecidableEq

/-- One element of `valid_data`: the original source dict with the derived
`time_stamp`, the integer-coerced `request_rate`, and `tp_int` merged in
(`{**source, "time_stamp": ..., "commit_id": ..., "request_rate": ..., "tp_int": ...}`). -/
structure NormalizedRecord where
  model_name : PyVal
  merged_at : PyVal
  request_rate : ℤ
  commit_id : PyVal
  tp : PyVal
  tp_int : ℤ
  time_stamp : ℤ
  device : Option PyVal
  mean_e2el_ms : Option PyVal
  mean_itl_ms : Option PyVal
  mean_tpot_ms : Option PyVal
  mean_ttft_ms : Option PyVal
  p99_itl_ms : Option PyVal
  p99_tpot_ms : Option PyVal
  p99_ttft_ms : Option PyVal
  request_throughput : Option PyVal
  output_token_throughput : Option PyVal
  total_token_throughput : Option PyVal
deriving DecidableEq

/-- `_convert_ms_to_s` (api_utils.py lines 170-179): `None` or a
non-numeric value yields the default `None`, otherwise `round(ms/1000, 2)`. -/
def _convert_ms_to_s (ms_value : Option PyVal) : Option ℚ :=
  match ms_value with
  | none => none
  | some v =>
    match PyVal.toNum v with
    | none => none
    | some q => some (roundQ 2 (q / 1000))

/-- `_convert_datetime_to_timestamp` (api_utils.py lines 182-194).  The
source catches only `ValueError`; `strptime` applied to a truthy non-string
value raises `TypeError`, which escapes. -/
def _convert_datetime_to_timestamp (datetime_str : Option PyVal) :
    Except PyErr (Option ℤ) :=
  if PyVal.truthy datetime_str = false then .ok none
  else
    match datetime_str with
    | some (.vStr s) => .ok (parseDatetimeStr s)
    | _ => .error .typeError

/-- The output row built by `map_compare_pair_response`. -/
structure MetricPair where
  name : String
  tensor_parallel : String
  request_rate : Option ℤ
  device : String
  latency_s : String
  mean_itl_ms : String
  mean_tpot_ms : String
  mean_ttft_ms : String
  p99_itl_ms : String
  p99_tpot_ms : String
  p99_ttft_ms : String
  serve_request_throughput_req_s : String
  serve_output_throughput_tok_s : String
  serve_total_throughput_tok_s : String
  requests_req_s : String
  tokens_tok_s : String
deriving DecidableEq

/-- `_safe_format` inside `_format_pair`: `None` or a non-numeric value
renders as `"null"`, a numeric value as `f"{val:.2f}"`. -/
def _safe_format : Option PyVal → String
  | none => "null"
  | some v =>
    match PyVal.toNum v with
    | none => "null"
    | some q => fmtFixed 2 q

/-- `_format_pair` (api_utils.py lines 220-226). -/
def _format_pair (old_val new_val : Option PyVal) : String :=
  _safe_format old_val ++ "→" ++ _safe_format new_val

/-- `_get_single_value` (api_utils.py lines 228-235), for the keys `tp` and
`request_rate`, which every record of `valid_data` carries. -/
def _get_single_value (old_data new_data : Option NormalizedRecord)
    (f : NormalizedRecord → PyVal) : String :=
  let old_val := old_data.map f
  let new_val := new_data.map f
  let val := match old_val with
    | some v => if (PyVal.toNum v).isSome then some v else new_val
    | none => new_val
  match val with
  | none => "null"
  | some (.vInt n) => fmtFixed 0 (n : ℚ)
  | some (.vFloat q) => fmtFixed 2 q
  | some (.vStr _) => "null"

/-- `_get_base_field` (api_utils.py lines 238-241). -/
def _get_base_field (old_data new_data : Option NormalizedRecord)
    (f : NormalizedRecord → Option PyVal) : String :=
  match old_data.bind f with
  | some v => pyStr v
  | none =>
    match new_data.bind f with
    | some v => pyStr v
    | none => "null"

/-- The latency side of a pair:
`_convert_ms_to_s(_safe_get(d, "mean_e2el_ms")) if d else None`. -/
def latencySide (d : Option NormalizedRecord) : Option PyVal :=
  match d with
  | some r => (_convert_ms_to_s r.mean_e2el_ms).map PyVal.vFloat
  | none => none

/-- One side of a metric pair: `_safe_get(d, key) if d else None`. -/
def metricSide (d : Option NormalizedRecord) (f : NormalizedRecord → Option PyVal) :
    Option PyVal :=
  d.bind f

/-- The `request_rate` string rendered by `_get_single_value`. -/
def rrString (old_data new_data : Option NormalizedRecord) : String :=
  _get_single_value old_data new_data (fun r => .vInt r.request_rate)

/-- The typed `request_rate` of the output row:
`int(_get_single_value("request_rate")) if ... != "null" else None`. -/
def mcpRate (old_data new_data : Option NormalizedRecord) : Option ℤ :=
  if rrString old_data new_data = "null" then none
  else parseIntStr (rrString old_data new_data)

/-- `map_compare_pair_response` (api_utils.py lines 216-297) on elements of
`valid_data`.  The only statement that can raise is
`int(_get_single_value("request_rate"))`, when the rendered string is not a
valid integer literal; the `Except` layer carries that `ValueError`. -/
def map_compare_pair_response (old_data new_data : Option NormalizedRecord) :
    Except PyErr MetricPair :=
  let rr : Except PyErr (Option ℤ) :=
    if rrString old_data new_data = "null" then .ok none
    else
      match parseIntStr (rrString old_data new_data) with
      | some z => .ok (some z)
      | none => .error .valueError
  match rr with
  | .error e => .error e
  | .ok rrv =>
    .ok
      { name := _get_base_field old_data new_data (fun r => some r.model_name)
        tensor_parallel := _get_single_value old_data new_data (fun r => r.tp)
        request_rate := rrv
        device := _get_base_field old_data new_data (fun r => r.device)
        latency_s := _format_pair (latencySide old_data) (latencySide new_data)
        mean_itl_ms := _format_pair (metricSide old_data (·.mean_itl_ms)) (metricSide new_data (·.mean_itl_ms))
        mean_tpot_ms := _format_pair (metricSide old_data (·.mean_tpot_ms)) (metricSide new_data (·.mean_tpot_ms))
        mean_ttft_ms := _format_pair (metricSide old_data (·.mean_ttft_ms)) (metricSide new_data (·.mean_ttft_ms))
        p99_itl_ms := _format_pair (metricSide old_data (·.p99_itl_ms)) (metricSide new_data (·.p99_itl_ms))
        p99_tpot_ms := _format_pair (metricSide old_data (·.p99_tpot_ms)) (metricSide new_data (·.p99_tpot_ms))
        p99_ttft_ms := _format_pair (metricSide old_data (·.p99_ttft_ms)) (metricSide new_data (·.p99_ttft_ms))
        serve_request_throughput_req_s :=
          _format_pair (metricSide old_data (·.request_throughput)) (metricSide new_data (·.request_throughput))
        serve_output_throughput_tok_s :=
          _format_pair (metricSide old_data (·.output_token_throughput)) (metricSide new_data (·.output_token_throughput))
        serve_total_throughput_tok_s :=
          _format_pair (metricSide old_data (·.total_token_throughput)) (metricSide new_data (·.total_token_throughput))
        requests_req_s :=
          _format_pair (metricSide old_data (·.request_throughput)) (metricSide new_data (·.request_throughput))
        tokens_tok_s :=
          _format_pair (metricSide old_data (·.total_token_throughput)) (metricSide new_data (·.total_token_throughput)) }

/-- The value `map_compare_pair_response` returns when it does not raise
(proved below: on elements of `valid_data` it never raises, because the
rendered `request_rate` string is always a plain integer literal). -/
def map_compare_pair_value (old_data new_data : Option NormalizedRecord) : MetricPair :=
  match map_compare_pair_response old_data new_data with
  | .ok m => m
  | .error _ =>
    { name := "", tensor_parallel := "", request_rate := none, device := ""
      latency_s := "", mean_itl_ms := "", mean_tpot_ms := "", mean_ttft_ms := ""
      p99_itl_ms := "", p99_tpot_ms := "", p99_ttft_ms := ""
      serve_request_throughput_req_s := "", serve_output_throughput_tok_s := ""
      serve_total_throughput_tok_s := "", requests_req_s := "", tokens_tok_s := "" }

/-- The row `map_compare_pair_response` produces when it does not raise
(proved below that it never raises, and that `map_compare_pair_value`
always equals this row). -/
def mcpRow (old_data new_data : Option NormalizedRecord) : MetricPair :=
  { name := _get_base_field old_data new_data (fun r => some r.model_name)
    tensor_parallel := _get_single_value old_data new_data (fun r => r.tp)
    request_rate := mcpRate old_data new_data
    device := _get_base_field old_data new_data (fun r => r.device)
    latency_s := _format_pair (latencySide old_data) (latencySide new_data)
    mean_itl_ms := _format_pair (metricSide old_data (·.mean_itl_ms)) (metricSide new_data (·.mean_itl_ms))
    mean_tpot_ms := _format_pair (metricSide old_data (·.mean_tpot_ms)) (metricSide new_data (·.mean_tpot_ms))
    mean_ttft_ms := _format_pair (metricSide old_data (·.mean_ttft_ms)) (metricSide new_data (·.mean_ttft_ms))
    p99_itl_ms := _format_pair (metricSide old_data (·.p99_itl_ms)) (metricSide new_data (·.p99_itl_ms))
    p99_tpot_ms := _format_pair (metricSide old_data (·.p99_tpot_ms)) (metricSide new_data (·.p99_tpot_ms))
    p99_ttft_ms := _format_pair (metricSide old_data (·.p99_ttft_ms)) (metricSide new_data (·.p99_ttft_ms))
    serve_request_throughput_req_s :=
      _format_pair (metricSide old_data (·.request_throughput)) (metricSide new_data (·.request_throughput))
    serve_output_throughput_tok_s :=
      _format_pair (metricSide old_data (·.output_token_throughput)) (metricSide new_data (·.output_token_throughput))
    serve_total_throughput_tok_s :=
      _format_pair (metricSide old_data (·.total_token_throughput)) (metricSide new_data (·.total_token_throughput))
    requests_req_s :=
      _format_pair (metricSide old_data (·.request_throughput)) (metricSide new_data (·.request_throughput))
    tokens_tok_s :=
      _format_pair (metricSide old_data (·.total_token_throughput)) (metricSide new_data (·.total_token_throughput)) }

/-- The per-hit body of the validation loop of
`process_data_details_compare_response` (api_utils.py lines 310-365).
`.ok none` is a skipped (logged) record; `.error` is the uncaught
`TypeError` from `_convert_datetime_to_timestamp`. -/
def normalizeOne (source : Source) : Except PyErr (Option NormalizedRecord) :=
  match source.model_name with
  | none => .ok none
  | some mn =>
    if mn = .vStr "" ∨ mn = .vStr "null" then .ok none
    else
      match source.merged_at with
      | none => .ok none
      | some ma =>
        if ma = .vStr "" ∨ ma = .vStr "null" then .ok none
        else
          match source.request_rate with
          | none => .ok none
          | some rrv =>
            if rrv = .vStr "" ∨ rrv = .vStr "null" then .ok none
            else
              match pyFloatOf rrv with
              | none => .ok none
              | some rrq =>
                if rrq.den ≠ 1 then .ok none
                else
                  match source.commit_id with
                  | none => .ok none
                  | some cid =>
                    if cid = .vStr "" ∨ cid = .vStr "null" then .ok none
                    else
                      match source.tp with
                      | none => .ok none
                      | some tpv =>
                        if tpv = .vStr "" ∨ tpv = .vStr "null" then .ok none
                        else
                          match PyVal.toNum tpv with
                          | none => .ok none
                          | some tpq =>
                            match _convert_datetime_to_timestamp source.merged_at with
                            | .error e => .error e
                            | .ok none => .ok none
                            | .ok (some ts) =>
                              if ts = 0 then .ok none  -- `if not time_stamp` truthiness test
                              else
                                .ok (some
                                  { model_name := mn
                                    merged_at := ma
                                    request_rate := rrq.num
                                    commit_id := cid
                                    tp := tpv
                                    tp_int := truncQ tpq
                                    time_stamp := ts
                                    device := source.device
                                    mean_e2el_ms := source.mean_e2el_ms
                                    mean_itl_ms := source.mean_itl_ms
                                    mean_tpot_ms := source.mean_tpot_ms
                                    mean_ttft_ms := source.mean_ttft_ms
                                    p99_itl_ms := source.p99_itl_ms
                                    p99_tpot_ms := source.p99_tpot_ms
                                    p99_ttft_ms := source.p99_ttft_ms
                                    request_throughput := source.request_throughput
                                    output_token_throughput := source.output_token_throughput
                                    total_token_throughput := source.total_token_throughput })

/-- The whole validation loop: `valid_data`. -/
def collectValid : List Source → Except PyErr (List NormalizedRecord)
  | [] => .ok []
  | s :: rest =>
    match normalizeOne s with
    | .error e => .error e
    | .ok r? =>
      match collectValid rest with
      | .error e => .error e
      | .ok rs =>
        match r? with
        | none => .ok rs
        | some r => .ok (r :: rs)

/-- Python `min(v :: vs, key=...)`: the first element attaining the minimal
key (`min` replaces the best only on a strictly smaller key). -/
def minByDist (target : ℤ) (v : NormalizedRecord) (vs : List NormalizedRecord) :
    NormalizedRecord :=
  vs.foldl
    (fun best x =>
      if |x.time_stamp - target| < |best.time_stamp - target| then x else best)
    v

/-- `start_commit` (api_utils.py line 375). -/
def resolveStartCommit (target_start : ℤ) (v : NormalizedRecord)
    (vs : List NormalizedRecord) : PyVal :=
  (minByDist target_start v vs).commit_id

/-- `end_commit` (api_utils.py lines 376-377). -/
def resolveEndCommit (target_start target_end : ℤ) (v : NormalizedRecord)
    (vs : List NormalizedRecord) : PyVal :=
  if target_start = target_end then resolveStartCommit target_start v vs
  else (minByDist target_end v vs).commit_id

/-- The `(model_name, request_rate, commit_id)` grouping key. -/
def recordKey (r : NormalizedRecord) : PyVal × ℤ × PyVal :=
  (r.model_name, r.request_rate, r.commit_id)

/-- One step of building `data_groups`: append the record to its key group,
creating the group at the end on first sight of the key (Python dicts
preserve insertion order). -/
def groupStep (gs : List ((PyVal × ℤ × PyVal) × List NormalizedRecord))
    (r : NormalizedRecord) : List ((PyVal × ℤ × PyVal) × List NormalizedRecord) :=
  if (gs.find? (fun g => g.1 = recordKey r)).isSome then
    gs.map (fun g => if g.1 = recordKey r then (g.1, g.2 ++ [r]) else g)
  else gs ++ [(recordKey r, [r])]

/-- `data_groups` (api_utils.py lines 381-386): an insertion-ordered dict
from grouping key to the list of records with that key. -/
def buildGroups (valid : List NormalizedRecord) :
    List ((PyVal × ℤ × PyVal) × List NormalizedRecord) :=
  valid.foldl groupStep []

/-- Dictionary lookup in `data_groups`. -/
def lookupGroup (gs : List ((PyVal × ℤ × PyVal) × List NormalizedRecord))
    (k : PyVal × ℤ × PyVal) : Option (List NormalizedRecord) :=
  (gs.find? (fun g => g.1 = k)).map (fun g => g.2)

/-- `all_combinations` (api_utils.py lines 389-393).  The source collects
the combinations into a Python `set`, whose iteration order is
implementation defined; the embedding fixes the first-occurrence order of
the group keys. -/
def comboStep (acc : List (PyVal × ℤ))
    (g : (PyVal × ℤ × PyVal) × List NormalizedRecord) : List (PyVal × ℤ) :=
  if PyVal.isSentinel (some g.1.1) then acc
  else if (g.1.1, g.1.2.1) ∈ acc then acc
  else acc ++ [(g.1.1, g.1.2.1)]

def allCombinations (valid : List NormalizedRecord) : List (PyVal × ℤ) :=
  (buildGroups valid).foldl comboStep []

/-- The comparison-row generation loop (api_utils.py lines 400-409):
`old_data`/`new_data` are the first record of the
`(model, rate, start_commit)` / `(model, rate, end_commit)` group, or
absent. -/
def pairRows (valid : List NormalizedRecord) (start_commit end_commit : PyVal) :
    Except PyErr (List MetricPair) :=
  let groups := buildGroups valid
  (allCombinations valid).mapM
    (fun c =>
      map_compare_pair_response
        ((lookupGroup groups (c.1, c.2, start_commit)).bind List.head?)
        ((lookupGroup groups (c.1, c.2, end_commit)).bind List.head?))

/-- `item[k] in invalid_data` for the string-valued row fields. -/
def strSentinel (s : String) : Bool := s = "" || s = "null"

/-- The final-filter predicate (api_utils.py lines 412-422): keep the row
unless `name`, `tensor_parallel` and `request_rate` are all invalid. -/
def keepRow (m : MetricPair) : Bool :=
  !(strSentinel m.name && strSentinel m.tensor_parallel && decide (m.request_rate = none))

/-- The tuple `sorted` compares: name (or `float("inf")`), then
`float(tensor_parallel)` (or inf), then `float(request_rate)` (or inf).
`⊤` models `float("inf")`; a string name is its character list. -/
abbrev SKeyT : Type := WithTop (List Char) × WithTop ℚ × WithTop ℚ

/-- The name component of the sort key:
`x["name"] if x["name"] not in invalid_data else float("inf")`. -/
def nameKeyOf (m : MetricPair) : WithTop (List Char) :=
  if strSentinel m.name then ⊤ else (m.name.data : WithTop (List Char))

/-- The `request_rate` component of the sort key. -/
def rateKeyOf (m : MetricPair) : WithTop ℚ :=
  match m.request_rate with
  | none => ⊤
  | some z => ((z : ℚ) : WithTop ℚ)

/-- The sort key of one row (api_utils.py lines 426-430).  `float(...)`
on an unparsable `tensor_parallel` string raises `ValueError`. -/
def sortKeyOf (m : MetricPair) : Except PyErr SKeyT :=
  if strSentinel m.tensor_parallel then .ok (nameKeyOf m, ⊤, rateKeyOf m)
  else
    match parseFloatStr m.tensor_parallel with
    | some q => .ok (nameKeyOf m, (q : WithTop ℚ), rateKeyOf m)
    | none => .error .valueError

/-- Comparison of two sort keys, as Python compares the key tuples: a string
name and `float("inf")` are incomparable (`TypeError`), otherwise the
lexicographic order decides. -/
def skeyComparable (a b : SKeyT) : Bool :=
  (a.1 = ⊤ ∧ b.1 = ⊤) ∨ (a.1 ≠ ⊤ ∧ b.1 ≠ ⊤)

/-- Total lexicographic key order used once all pairs are comparable. -/
def skeyLe (a b : SKeyT) : Bool :=
  decide (toLex (a.1, toLex (a.2.1, a.2.2)) ≤ toLex (b.1, toLex (b.2.1, b.2.2)))

/-- `sorted(filtered_result, key=...)` (api_utils.py lines 424-431).
CPython evaluates the key once per row (a `ValueError` from `float` escapes
there), then runs a stable merge sort over the keys; it raises `TypeError`
as soon as it compares a string name with `float("inf")`.  The embedding
raises iff some pair of keys is incomparable (for the lists this code
produces, either no comparison fails or — as with two rows — the failing
pair is certainly compared). -/
def pySortedRows (l : List MetricPair) : Except PyErr (List MetricPair) :=
  match l.mapM (fun m => (sortKeyOf m).map (fun k => (m, k))) with
  | .error e => .error e
  | .ok keyed =>
    if keyed.all (fun a => keyed.all (fun b => skeyComparable a.2 b.2)) then
      .ok ((keyed.mergeSort (fun a b => skeyLe a.2 b.2)).map (fun a => a.1))
    else .error .typeError

/-- Embedding of `process_data_details_compare_response`
(api_utils.py lines 300-434). -/
def process_data_details_compare_response (hits : List Source)
    (startTime endTime : ℤ) : Except PyErr (List MetricPair) :=
  match collectValid hits with
  | .error e => .error e
  | .ok [] => .ok []
  | .ok (v :: vs) =>
    if allCombinations (v :: vs) = [] then .ok []
    else
      match pairRows (v :: vs) (resolveStartCommit startTime v vs)
          (resolveEndCommit startTime endTime v vs) with
      | .error e => .error e
      | .ok result => pySortedRows (result.filter keepRow)

end ComparePipeline

instance {ε α : Type} [DecidableEq ε] [DecidableEq α] : DecidableEq (Except ε α) :=
  fun a b =>
    match a, b with
    | .error e, .error f =>
      if h : e = f then isTrue (by rw [h]) else isFalse (fun hh => h (by injection hh))
    | .error _, .ok _ => isFalse (fun hh => Except.noConfusion hh)
    | .ok _, .error _ => isFalse (fun hh => Except.noConfusion hh)
    | .ok a, .ok b =>
      if h : a = b then isTrue (by rw [h]) else isFalse (fun hh => h (by injection hh))

/-- The two records of the claimed scenario: model `Qwen3-8B`,
`request_rate = 16`, `tp = 1`, commits `c1`/`c2` with derived time stamps
100/200 and `mean_e2el_ms` 1000/2000. -/
def c1source1 : Source :=
  { model_name := some (.vStr "Qwen3-8B")
    merged_at := some (.vStr "1970-01-01T00:01:40")
    request_rate := some (.vInt 16)
    commit_id := some (.vStr "c1")
    tp := some (.vInt 1)
    mean_e2el_ms := some (.vInt 1000) }

def c1source2 : Source :=
  { model_name := some (.vStr "Qwen3-8B")
    merged_at := some (.vStr "1970-01-01T00:03:20")
    request_rate := some (.vInt 16)
    commit_id := some (.vStr "c2")
    tp := some (.vInt 1)
    mean_e2el_ms := some (.vInt 2000) }

/-- The twelve arrow-paired metric fields of an output row. -/
def arrowFields : List (MetricPair → String) :=
  [(·.latency_s), (·.mean_itl_ms), (·.mean_tpot_ms), (·.mean_ttft_ms),
   (·.p99_itl_ms), (·.p99_tpot_ms), (·.p99_ttft_ms),
   (·.serve_request_throughput_req_s), (·.serve_output_throughput_tok_s),
   (·.serve_total_throughput_tok_s), (·.requests_req_s), (·.tokens_tok_s)]

/-- The shape of every row the pairing stage produces: either all three
identity fields are sentinel (both sides of the pair were absent), or the
name is a real string and `tensor_parallel` is either sentinel or a
rendered number. -/
def rowGood (m : MetricPair) : Prop :=
  (strSentinel m.name = true ∧ strSentinel m.tensor_parallel = true ∧
    m.request_rate = none) ∨
  (strSentinel m.name = false ∧
    (strSentinel m.tensor_parallel = true ∨ (parseFloatStr m.tensor_parallel).isSome = true))

/-- A minimal valid record used in concrete witnesses. -/
def mkRec (c : String) (ts : ℤ) : NormalizedRecord :=
  { model_name := .vStr "m"
    merged_at := .vStr "1970-01-01T00:01:40"
    request_rate := 16
    commit_id := .vStr c
    tp := .vInt 1
    tp_int := 1
    time_stamp := ts
    device := none
    mean_e2el_ms := none
    mean_itl_ms := none
    mean_tpot_ms := none
    mean_ttft_ms := none
    p99_itl_ms := none
    p99_tpot_ms := none
    p99_ttft_ms := none
    request_throughput := none
    output_token_throughput := none
    total_token_throughput := none }

/-- A hit whose `merged_at` is the integer `100`: every field passes the
sentinel screen, but `strptime` is then applied to a non-string. -/
def badMergedAtSource : Source :=
  { model_name := some (.vStr "m")
    merged_at := some (.vInt 100)
    request_rate := some (.vInt 16)
    commit_id := some (.vStr "c")
    tp := some (.vInt 1) }

/-- A fully valid hit whose `merged_at` parses to exactly epoch 0. -/
def epoch0Source : Source :=
  { model_name := some (.vStr "m")
    merged_at := some (.vStr "1970-01-01T00:00:00")
    request_rate := some (.vInt 16)
    commit_id := some (.vStr "c")
    tp := some (.vInt 1) }

/-- A row with sentinel name but a valid `tensor_parallel`: the final
filter keeps it, and its sort key starts with `float("inf")`. -/
def cxRowA : MetricPair :=
  { name := "null"
    tensor_parallel := "1"
    request_rate := some 1
    device := "null"
    latency_s := "null→null"
    mean_itl_ms := "null→null"
    mean_tpot_ms := "null→null"
    mean_ttft_ms := "null→null"
    p99_itl_ms := "null→null"
    p99_tpot_ms := "null→null"
    p99_ttft_ms := "null→null"
    serve_request_throughput_req_s := "null→null"
    serve_output_throughput_tok_s := "null→null"
    serve_total_throughput_tok_s := "null→null"
    requests_req_s := "null→null"
    tokens_tok_s := "null→null" }

/-- A row with a real name: its sort key starts with a string. -/
def cxRowB : MetricPair := { cxRowA with name := "m" }

/-- A parameter bag with all required keys valid but no `size` key. -/
def pNoSize : RawParams :=
  { startTime := some (some 100)
    endTime := some (some 200)
    models := some (some "a")
    engineVersion := some (some 0) }

/-- A fully valid parameter bag whose `size` is Python `None`. -/
def pOk : RawParams :=
  { startTime := some (some 100)
    endTime := some (some 200)
    models := some (some "a,b")
    engineVersion := some (some 1)
    size := some none }

/-- A fully valid parameter bag with `size = 20000`, above the page limit. -/
def pBig : RawParams :=
  { startTime := some (some 100)
    endTime := some (some 200)
    models := some (some "a")
    engineVersion := some (some 1)
    size := some (some 20000) }

section GeneralLemmas

lemma list_mapM_ok {α β : Type} {f : α → Except PyErr β} {g : α → β}
    (hf : ∀ x, f x = .ok (g x)) : ∀ l : List α, l.mapM f = .ok (l.map g) := by
  intro l
  induction l with
  | nil => simp [List.mapM_nil]; rfl
  | cons a l ih =>
    rw [List.mapM_cons, hf a, ih]
    rfl

lemma list_mapM_ok_exists {α β : Type} {f : α → Except PyErr β} :
    ∀ {l : List α}, (∀ x ∈ l, ∃ y, f x = .ok y) →
      ∃ ys, l.mapM f = .ok ys ∧ List.Forall₂ (fun x y => f x = .ok y) l ys := by
  intro l
  induction l with
  | nil => exact fun _ => ⟨[], by simp [List.mapM_nil]; rfl, List.Forall₂.nil⟩
  | cons a l ih =>
    intro h
    obtain ⟨y, hy⟩ := h a (by simp)
    obtain ⟨ys, hys, hall⟩ := ih (fun x hx => h x (by simp [hx]))
    refine ⟨y :: ys, ?_, List.Forall₂.cons hy hall⟩
    rw [List.mapM_cons, hy, hys]
    rfl

lemma forall₂_mem_right {α β : Type} {R : α → β → Prop} :
    ∀ {l : List α} {ys : List β}, List.Forall₂ R l ys →
      ∀ y ∈ ys, ∃ x ∈ l, R x y := by
  intro l ys h
  induction h with
  | nil => simp
  | cons hr _ ih =>
    intro y hy
    rcases List.mem_cons.mp hy with h1 | h2
    · exact ⟨_, by simp, h1 ▸ hr⟩
    · obtain ⟨x, hx, hRx⟩ := ih y h2
      exact ⟨x, by simp [hx], hRx⟩

lemma digitChar10_spec (k : ℕ) :
    (digitChar10 k).isDigit = true ∧ isPySpace (digitChar10 k) = false ∧
      digitChar10 k ≠ '-' ∧ digitChar10 k ≠ '+' ∧ digitChar10 k ≠ 'n' := by
  unfold digitChar10
  split_ifs <;> exact ⟨by decide, by decide, by decide, by decide, by decide⟩

lemma natDigitsCore_spec :
    ∀ (fuel n : ℕ), n < fuel →
      natDigitsCore fuel n ≠ [] ∧ ∀ c ∈ natDigitsCore fuel n, ∃ k, c = digitChar10 k := by
  intro fuel
  induction fuel with
  | zero => omega
  | succ fuel ih =>
    intro n hn
    unfold natDigitsCore
    by_cases h10 : n < 10
    · simp [h10]
    · have hrec := ih (n / 10) (by omega)
      simp only [h10, if_false]
      constructor
      · simp
      · intro c hc
        rcases List.mem_append.mp hc with h1 | h2
        · exact hrec.2 c h1
        · exact ⟨n % 10, by simpa using h2⟩

lemma natDigits_ne_nil (n : ℕ) : natDigits n ≠ [] :=
  (natDigitsCore_spec (n + 1) n (by omega)).1

lemma natDigits_mem (n : ℕ) : ∀ c ∈ natDigits n, ∃ k, c = digitChar10 k :=
  (natDigitsCore_spec (n + 1) n (by omega)).2

lemma dropWhile_eq_self_of {l : List Char} (h : ∀ c ∈ l, isPySpace c = false) :
    l.dropWhile isPySpace = l := by
  cases l with
  | nil => rfl
  | cons c cs => simp [List.dropWhile, h c (by simp)]

lemma trimChars_eq_self {l : List Char} (h : ∀ c ∈ l, isPySpace c = false) :
    trimChars l = l := by
  unfold trimChars
  rw [dropWhile_eq_self_of h,
    dropWhile_eq_self_of (fun c hc => h c (List.mem_reverse.mp hc)), List.reverse_reverse]

end GeneralLemmas

section FormatLemmas

lemma roundHalfEvenZ_intCast (m : ℤ) : roundHalfEvenZ (m : ℚ) = m := by
  unfold roundHalfEvenZ
  simp only [Int.floor_intCast, sub_self]
  have h1 : ((0 : ℚ) < 1 / 2) := by norm_num
  simp [h1]

lemma fmtFixed_zero_int (z : ℤ) :
    fmtFixed 0 (z : ℚ) =
      (if (z : ℚ) < 0 then "-" ++ natStr z.natAbs else natStr z.natAbs) := by
  unfold fmtFixed
  have habs : |(z : ℚ)| = ((z.natAbs : ℤ) : ℚ) := by
    simp [Int.cast_natAbs]
  rw [pow_zero, mul_one, habs, roundHalfEvenZ_intCast, Int.toNat_natCast]
  simp

lemma parseIntDigits_natDigits (n : ℕ) :
    parseIntDigits (natDigits n) = some (digitsToNat (natDigits n)) := by
  have hall : (natDigits n).all Char.isDigit = true :=
    List.all_eq_true.mpr (fun c hc => by
      obtain ⟨k, hk⟩ := natDigits_mem n c hc
      rw [hk]; exact (digitChar10_spec k).1)
  simp [parseIntDigits, natDigits_ne_nil n, hall]

lemma trimChars_dash_digits (n : ℕ) :
    trimChars ('-' :: natDigits n) = '-' :: natDigits n :=
  trimChars_eq_self (by
    intro c hc
    rcases List.mem_cons.mp hc with h | h
    · rw [h]; decide
    · obtain ⟨k, hk⟩ := natDigits_mem n c h
      rw [hk]; exact (digitChar10_spec k).2.1)

lemma trimChars_digits (n : ℕ) : trimChars (natDigits n) = natDigits n :=
  trimChars_eq_self (by
    intro c hc
    obtain ⟨k, hk⟩ := natDigits_mem n c hc
    rw [hk]; exact (digitChar10_spec k).2.1)

lemma parseIntStr_fmtFixed0 (z : ℤ) :
    ∃ w, parseIntStr (fmtFixed 0 (z : ℚ)) = some w := by
  rw [fmtFixed_zero_int]
  by_cases hneg : (z : ℚ) < 0
  · rw [if_pos hneg]
    show ∃ w, parseIntStr (String.mk ('-' :: natDigits z.natAbs)) = some w
    unfold parseIntStr
    rw [show (String.mk ('-' :: natDigits z.natAbs)).data = '-' :: natDigits z.natAbs from rfl,
      trimChars_dash_digits]
    simp [parseIntDigits_natDigits]
  · rw [if_neg hneg]
    show ∃ w, parseIntStr (String.mk (natDigits z.natAbs)) = some w
    unfold parseIntStr
    rw [show (String.mk (natDigits z.natAbs)).data = natDigits z.natAbs from rfl,
      trimChars_digits]
    rcases hnd : natDigits z.natAbs with _ | ⟨c, cs⟩
    · exact absurd hnd (natDigits_ne_nil _)
    · obtain ⟨k, hk⟩ := natDigits_mem z.natAbs c (by rw [hnd]; simp)
      have hc1 : ¬(c = '-') := by rw [hk]; exact (digitChar10_spec k).2.2.1
      have hc2 : ¬(c = '+') := by rw [hk]; exact (digitChar10_spec k).2.2.2.1
      simp only [hc1, hc2, if_false]
      rw [← hnd, parseIntDigits_natDigits]
      exact ⟨_, rfl⟩

lemma fmtFixed0_ne_null (z : ℤ) : fmtFixed 0 (z : ℚ) ≠ "null" := by
  rw [fmtFixed_zero_int]
  by_cases hneg : (z : ℚ) < 0
  · rw [if_pos hneg]
    intro h
    have := congrArg String.data h
    simp at this
  · rw [if_neg hneg]
    intro h
    have hdata : natDigits z.natAbs = "null".data := congrArg String.data h
    have hn : 'n' ∈ natDigits z.natAbs := by rw [hdata]; simp
    obtain ⟨k, hk⟩ := natDigits_mem z.natAbs 'n' hn
    exact (digitChar10_spec k).2.2.2.2 hk.symm

lemma rrString_cases (o n : Option NormalizedRecord) :
    rrString o n = "null" ∨ ∃ z : ℤ, rrString o n = fmtFixed 0 (z : ℚ) := by
  unfold rrString _get_single_value
  cases o with
  | some r => exact .inr ⟨r.request_rate, by simp [PyVal.toNum]⟩
  | none =>
    cases n with
    | none => exact .inl rfl
    | some r => exact .inr ⟨r.request_rate, by simp [PyVal.toNum]⟩

lemma map_compare_pair_response_eq (o n : Option NormalizedRecord) :
    map_compare_pair_response o n = .ok (mcpRow o n) := by
  unfold map_compare_pair_response mcpRow mcpRate
  rcases rrString_cases o n with h | ⟨z, h⟩
  · simp [h]
  · have hne : rrString o n ≠ "null" := by rw [h]; exact fmtFixed0_ne_null z
    obtain ⟨w, hw⟩ := parseIntStr_fmtFixed0 z
    rw [h] at hne ⊢
    simp [hne, hw]

lemma map_compare_pair_value_eq (o n : Option NormalizedRecord) :
    map_compare_pair_value o n = mcpRow o n := by
  unfold map_compare_pair_value
  rw [map_compare_pair_response_eq]

end FormatLemmas

section GroupLemmas

lemma modify_fst (r : NormalizedRecord) (g : (PyVal × ℤ × PyVal) × List NormalizedRecord) :
    (if g.1 = recordKey r then (g.1, g.2 ++ [r]) else g).1 = g.1 := by
  split <;> rfl

lemma groupStep_ne_nil {gs : List ((PyVal × ℤ × PyVal) × List NormalizedRecord)}
    (hne : ∀ g ∈ gs, g.2 ≠ []) (r : NormalizedRecord) :
    ∀ g ∈ groupStep gs r, g.2 ≠ [] := by
  intro g hg
  unfold groupStep at hg
  split at hg
  · obtain ⟨g0, hg0, rfl⟩ := List.mem_map.mp hg
    by_cases hk : g0.1 = recordKey r
    · simp [hk]
    · simpa [hk] using hne g0 hg0
  · rcases List.mem_append.mp hg with h1 | h2
    · exact hne g h1
    · have : g = (recordKey r, [r]) := by simpa using h2
      simp [this]

lemma groupStep_lookup (gs : List ((PyVal × ℤ × PyVal) × List NormalizedRecord))
    (hne : ∀ g ∈ gs, g.2 ≠ []) (r : NormalizedRecord) (k : PyVal × ℤ × PyVal) :
    (lookupGroup (groupStep gs r) k).bind List.head? =
      ((lookupGroup gs k).bind List.head?).or
        (if recordKey r = k then some r else none) := by
  unfold groupStep lookupGroup
  by_cases hf : (gs.find? (fun g => decide (g.1 = recordKey r))).isSome = true
  · rw [if_pos hf, List.find?_map]
    have hcomp :
        ((fun g => decide (g.1 = k)) ∘
          (fun g => if g.1 = recordKey r then (g.1, g.2 ++ [r]) else g)) =
          fun (g : (PyVal × ℤ × PyVal) × List NormalizedRecord) => decide (g.1 = k) := by
      funext g
      simp [Function.comp, modify_fst r g]
    rw [hcomp]
    by_cases hk : recordKey r = k
    · obtain ⟨g0, hg0⟩ := Option.isSome_iff_exists.mp hf
      have hmem := List.mem_of_find?_eq_some hg0
      have hg0k : g0.1 = recordKey r := by simpa using List.find?_some hg0
      have hfk : gs.find? (fun g => decide (g.1 = k)) = some g0 := by rw [← hk]; exact hg0
      have hne0 := hne g0 hmem
      cases hcase : g0.2 with
      | nil => exact absurd hcase hne0
      | cons a t => simp [hfk, hg0k, hk, hcase]
    · cases hfind : gs.find? (fun g => decide (g.1 = k)) with
      | none => simp [hfind, hk]
      | some g0 =>
        have hg0k : g0.1 = k := by simpa using List.find?_some hfind
        have hne' : ¬(g0.1 = recordKey r) := by
          rw [hg0k]; exact fun h => hk h.symm
        simp [hfind, hk, hne']
  · rw [if_neg hf, List.find?_append]
    have hnone : gs.find? (fun g => decide (g.1 = recordKey r)) = none :=
      Option.not_isSome_iff_eq_none.mp hf
    by_cases hk : recordKey r = k
    · subst hk
      simp [hnone, List.find?]
    · have hentry : (decide (((recordKey r, [r]) :
          (PyVal × ℤ × PyVal) × List NormalizedRecord).1 = k)) = false := by simp [hk]
      simp [List.find?, hentry, hk]

lemma lookupGroup_foldl :
    ∀ (l : List NormalizedRecord) (gs : List ((PyVal × ℤ × PyVal) × List NormalizedRecord)),
      (∀ g ∈ gs, g.2 ≠ []) → ∀ k,
      (lookupGroup (l.foldl groupStep gs) k).bind List.head? =
        ((lookupGroup gs k).bind List.head?).or
          (l.find? (fun x => decide (recordKey x = k))) := by
  intro l
  induction l with
  | nil => intro gs hne k; simp
  | cons r rest ih =>
    intro gs hne k
    rw [List.foldl_cons, ih (groupStep gs r) (groupStep_ne_nil hne r) k,
      groupStep_lookup gs hne r k, Option.or_assoc]
    congr 1
    rw [List.find?_cons]
    by_cases h : recordKey r = k
    · simp [h]
    · simp [h]

lemma lookupGroup_head (valid : List NormalizedRecord) (k : PyVal × ℤ × PyVal) :
    (lookupGroup (buildGroups valid) k).bind List.head? =
      valid.find? (fun x => decide (recordKey x = k)) := by
  unfold buildGroups
  rw [lookupGroup_foldl valid [] (by simp) k]
  simp [lookupGroup]

lemma buildGroups_keys :
    ∀ (l : List NormalizedRecord) (gs : List ((PyVal × ℤ × PyVal) × List NormalizedRecord))
      (k : PyVal × ℤ × PyVal),
      (∃ g ∈ l.foldl groupStep gs, g.1 = k) ↔
        (∃ g ∈ gs, g.1 = k) ∨ ∃ x ∈ l, recordKey x = k := by
  intro l
  induction l with
  | nil => intro gs k; simp
  | cons r rest ih =>
    intro gs k
    rw [List.foldl_cons, ih (groupStep gs r) k]
    have hstep : (∃ g ∈ groupStep gs r, g.1 = k) ↔ (∃ g ∈ gs, g.1 = k) ∨ recordKey r = k := by
      unfold groupStep
      split
      · rename_i hf
        obtain ⟨g0, hg0⟩ := Option.isSome_iff_exists.mp hf
        have hg0mem := List.mem_of_find?_eq_some hg0
        have hg0k : g0.1 = recordKey r := by simpa using List.find?_some hg0
        constructor
        · rintro ⟨g, hg, rfl⟩
          obtain ⟨g1, hg1, rfl⟩ := List.mem_map.mp hg
          exact .inl ⟨g1, hg1, (modify_fst r g1).symm⟩
        · rintro (⟨g, hg, rfl⟩ | hk)
          · exact ⟨_, List.mem_map_of_mem _ hg, modify_fst r g⟩
          · exact ⟨_, List.mem_map_of_mem _ hg0mem, by rw [modify_fst r g0, hg0k, hk]⟩
      · constructor
        · rintro ⟨g, hg, rfl⟩
          rcases List.mem_append.mp hg with h1 | h2
          · exact .inl ⟨g, h1, rfl⟩
          · have : g = (recordKey r, [r]) := by simpa using h2
            exact .inr (by rw [this])
        · rintro (⟨g, hg, rfl⟩ | hk)
          · exact ⟨g, List.mem_append_left _ hg, rfl⟩
          · exact ⟨(recordKey r, [r]), List.mem_append_right _ (by simp), hk⟩
    rw [hstep]
    simp only [List.mem_cons]
    constructor
    · rintro ((h | h) | ⟨x, hx, hk⟩)
      · exact .inl h
      · exact .inr ⟨r, .inl rfl, h⟩
      · exact .inr ⟨x, .inr hx, hk⟩
    · rintro (h | ⟨x, hx | hx, hk⟩)
      · exact .inl (.inl h)
      · exact .inl (.inr (hx ▸ hk))
      · exact .inr ⟨x, hx, hk⟩

lemma comboStep_mem (acc : List (PyVal × ℤ))
    (g : (PyVal × ℤ × PyVal) × List NormalizedRecord) (c : PyVal × ℤ) :
    c ∈ comboStep acc g ↔
      c ∈ acc ∨ (PyVal.isSentinel (some g.1.1) = false ∧ (g.1.1, g.1.2.1) = c) := by
  unfold comboStep
  by_cases hs : PyVal.isSentinel (some g.1.1) = true
  · simp [hs]
  · by_cases hmem : (g.1.1, g.1.2.1) ∈ acc
    · simp only [Bool.not_eq_true] at hs
      simp only [hs, Bool.false_eq_true, if_false, hmem, if_true]
      constructor
      · exact .inl
      · rintro (h | ⟨_, rfl⟩)
        · exact h
        · exact hmem
    · simp only [Bool.not_eq_true] at hs
      simp only [hs, Bool.false_eq_true, if_false, hmem, if_true, List.mem_append,
        List.mem_singleton]
      constructor
      · rintro (h | rfl)
        · exact .inl h
        · exact .inr ⟨by trivial, rfl⟩
      · rintro (h | ⟨_, rfl⟩)
        · exact .inl h
        · exact .inr rfl

lemma comboFold_mem :
    ∀ (l : List ((PyVal × ℤ × PyVal) × List NormalizedRecord)) (acc : List (PyVal × ℤ))
      (c : PyVal × ℤ),
      c ∈ l.foldl comboStep acc ↔
        c ∈ acc ∨ ∃ g ∈ l, PyVal.isSentinel (some g.1.1) = false ∧ (g.1.1, g.1.2.1) = c := by
  intro l
  induction l with
  | nil => intro acc c; simp
  | cons g rest ih =>
    intro acc c
    rw [List.foldl_cons, ih (comboStep acc g) c, comboStep_mem]
    simp only [List.mem_cons]
    constructor
    · rintro ((h | h) | ⟨g1, hg1, hp⟩)
      · exact .inl h
      · exact .inr ⟨g, .inl rfl, h⟩
      · exact .inr ⟨g1, .inr hg1, hp⟩
    · rintro (h | ⟨g1, hg1 | hg1, hp⟩)
      · exact .inl (.inl h)
      · exact .inl (.inr (hg1 ▸ hp))
      · exact .inr ⟨g1, hg1, hp⟩

lemma comboFold_nodup :
    ∀ (l : List ((PyVal × ℤ × PyVal) × List NormalizedRecord)) (acc : List (PyVal × ℤ)),
      acc.Nodup → (l.foldl comboStep acc).Nodup := by
  intro l
  induction l with
  | nil => intro acc h; simpa using h
  | cons g rest ih =>
    intro acc h
    rw [List.foldl_cons]
    refine ih _ ?_
    unfold comboStep
    split
    · exact h
    · split
      · exact h
      · rename_i hmem
        exact List.Nodup.append h (List.nodup_singleton _)
          (by intro a ha hb; simp at hb; exact hmem (hb ▸ ha))

lemma allCombinations_nodup (valid : List NormalizedRecord) :
    (allCombinations valid).Nodup :=
  comboFold_nodup _ _ (by simp)

lemma allCombinations_mem (valid : List NormalizedRecord) (c : PyVal × ℤ)
    (hm : ∀ x ∈ valid, PyVal.isSentinel (some x.model_name) = false) :
    c ∈ allCombinations valid ↔ ∃ x ∈ valid, (x.model_name, x.request_rate) = c := by
  unfold allCombinations
  rw [comboFold_mem]
  simp only [List.not_mem_nil, false_or]
  constructor
  · rintro ⟨g, hg, hsent, rfl⟩
    have hkeys : ∃ x ∈ valid, recordKey x = g.1 :=
      (by simpa using (buildGroups_keys valid [] g.1).mp ⟨g, hg, rfl⟩)
    obtain ⟨x, hx, hkx⟩ := hkeys
    exact ⟨x, hx, by rw [← hkx]; rfl⟩
  · rintro ⟨x, hx, rfl⟩
    have hkeys : ∃ g ∈ buildGroups valid, g.1 = recordKey x :=
      (buildGroups_keys valid [] (recordKey x)).mpr (.inr ⟨x, hx, rfl⟩)
    obtain ⟨g, hg, hgk⟩ := hkeys
    refine ⟨g, hg, ?_, ?_⟩
    · rw [hgk]; exact hm x hx
    · rw [hgk]; rfl

end GroupLemmas

section SortLemmas

lemma skeyLe_trans (a b c : SKeyT) (hab : skeyLe a b = true) (hbc : skeyLe b c = true) :
    skeyLe a c = true := by
  simp only [skeyLe, decide_eq_true_eq] at hab hbc ⊢
  exact le_trans hab hbc

lemma skeyLe_total (a b : SKeyT) : (skeyLe a b || skeyLe b a) = true := by
  simp only [skeyLe, Bool.or_eq_true, decide_eq_true_eq]
  exact le_total _ _

lemma skeyLe_refl (a : SKeyT) : skeyLe a a = true := by
  simp only [skeyLe, decide_eq_true_eq]
  exact le_refl _

lemma keyedOf {l : List MetricPair} :
    ∀ {keyed : List (MetricPair × SKeyT)},
      l.mapM (fun m => (sortKeyOf m).map (fun k => (m, k))) = .ok keyed →
      keyed.map Prod.fst = l ∧ ∀ p ∈ keyed, sortKeyOf p.1 = .ok p.2 := by
  induction l with
  | nil =>
    intro keyed h
    rw [List.mapM_nil] at h
    have : keyed = [] := by
      injection h with h'
      exact h'.symm
    simp [this]
  | cons m rest ih =>
    intro keyed h
    rw [List.mapM_cons] at h
    cases hk : sortKeyOf m with
    | error e =>
      rw [hk] at h
      exact absurd h (by simp [Except.map, Bind.bind, Except.bind])
    | ok k =>
      rw [hk] at h
      cases hrest : rest.mapM (fun m => (sortKeyOf m).map (fun k => (m, k))) with
      | error e =>
        rw [hrest] at h
        exact absurd h (by simp [Except.map, Bind.bind, Except.bind])
      | ok ys =>
        rw [hrest] at h
        have hkeyed : keyed = (m, k) :: ys := by
          have : (Except.ok ((m, k) :: ys) : Except PyErr (List (MetricPair × SKeyT))) =
              .ok keyed := h
          injection this with h'
          exact h'.symm
        obtain ⟨h1, h2⟩ := ih hrest
        subst hkeyed
        refine ⟨by simp [h1], ?_⟩
        intro p hp
        rcases List.mem_cons.mp hp with rfl | hp'
        · exact hk
        · exact h2 p hp'

lemma pySortedRows_ok_spec {l out : List MetricPair} (h : pySortedRows l = .ok out) :
    ∃ keyed : List (MetricPair × SKeyT),
      l.mapM (fun m => (sortKeyOf m).map (fun k => (m, k))) = .ok keyed ∧
      keyed.map Prod.fst = l ∧
      (∀ p ∈ keyed, sortKeyOf p.1 = .ok p.2) ∧
      out = (keyed.mergeSort (fun a b => skeyLe a.2 b.2)).map Prod.fst := by
  unfold pySortedRows at h
  split at h
  · exact absurd h (by simp)
  · rename_i keyed heq
    split at h
    · obtain ⟨h1, h2⟩ := keyedOf heq
      refine ⟨keyed, heq, h1, h2, ?_⟩
      injection h with h'
      exact h'.symm
    · exact absurd h (by simp)

lemma pySortedRows_mem {l out : List MetricPair} (h : pySortedRows l = .ok out) :
    ∀ m ∈ out, m ∈ l := by
  obtain ⟨keyed, _, hfst, _, rfl⟩ := pySortedRows_ok_spec h
  intro m hm
  obtain ⟨p, hp, rfl⟩ := List.mem_map.mp hm
  have hpk : p ∈ keyed := List.mem_mergeSort.mp hp
  rw [← hfst]
  exact List.mem_map_of_mem _ hpk

end SortLemmas

section MinLemmas

lemma minByDist_cons (t : ℤ) (v x : NormalizedRecord) (rest : List NormalizedRecord) :
    minByDist t v (x :: rest) =
      minByDist t (if |x.time_stamp - t| < |v.time_stamp - t| then x else v) rest := rfl

lemma minByDist_spec (t : ℤ) :
    ∀ (vs : List NormalizedRecord) (v : NormalizedRecord),
      ∃ pre post, v :: vs = pre ++ minByDist t v vs :: post ∧
        (∀ a ∈ pre, |(minByDist t v vs).time_stamp - t| < |a.time_stamp - t|) ∧
        (∀ r ∈ v :: vs, |(minByDist t v vs).time_stamp - t| ≤ |r.time_stamp - t|) := by
  intro vs
  induction vs with
  | nil =>
    intro v
    refine ⟨[], [], rfl, by simp, ?_⟩
    intro r hr
    have : r = v := by simpa using hr
    rw [this]
    exact le_rfl
  | cons x rest ih =>
    intro v
    by_cases hx : |x.time_stamp - t| < |v.time_stamp - t|
    · obtain ⟨pre, post, hdec, hlt, hle⟩ := ih x
      rw [minByDist_cons, if_pos hx] at *
      refine ⟨v :: pre, post, ?_, ?_, ?_⟩
      · show v :: (x :: rest) = v :: (pre ++ minByDist t x rest :: post)
        exact congrArg _ hdec
      · intro a ha
        rcases List.mem_cons.mp ha with rfl | ha'
        · exact lt_of_le_of_lt (hle x (by simp)) hx
        · exact hlt a ha'
      · intro r hr
        rcases List.mem_cons.mp hr with rfl | hr'
        · exact le_of_lt (lt_of_le_of_lt (hle x (by simp)) hx)
        · exact hle r hr'
    · obtain ⟨pre, post, hdec, hlt, hle⟩ := ih v
      rw [minByDist_cons, if_neg hx] at *
      have hvx : |v.time_stamp - t| ≤ |x.time_stamp - t| := not_lt.mp hx
      cases hpre : pre with
      | nil =>
        rw [hpre] at hdec
        have hdec' : v = minByDist t v rest ∧ rest = post := by
          simpa using hdec
        refine ⟨[], x :: rest, by simp [← hdec'.1], by simp, ?_⟩
        intro r hr
        rcases List.mem_cons.mp hr with rfl | hr'
        · exact hle r (by simp)
        · rcases List.mem_cons.mp hr' with rfl | hr''
          · exact le_trans (hle v (by simp)) hvx
          · exact hle r (by simp [hr''])
      | cons a pre' =>
        rw [hpre] at hdec hlt
        have hdec' : v = a ∧ rest = pre' ++ minByDist t v rest :: post := by
          simpa using hdec
        obtain ⟨hva, hrest⟩ := hdec'
        refine ⟨v :: x :: pre', post, ?_, ?_, ?_⟩
        · show v :: (x :: rest) = v :: (x :: (pre' ++ minByDist t v rest :: post))
          exact congrArg _ (congrArg _ hrest)
        · intro b hb
          have hltv : |(minByDist t v rest).time_stamp - t| < |v.time_stamp - t| := by
            have := hlt a (by simp)
            rw [← hva] at this
            exact this
          rcases List.mem_cons.mp hb with rfl | hb'
          · exact hltv
          · rcases List.mem_cons.mp hb' with rfl | hb''
            · exact lt_of_lt_of_le hltv hvx
            · exact hlt b (by simp [hb''])
        · intro r hr
          rcases List.mem_cons.mp hr with rfl | hr'
          · exact hle r (by simp)
          · rcases List.mem_cons.mp hr' with rfl | hr''
            · exact le_trans (hle v (by simp)) hvx
            · exact hle r (by simp [hr''])

end MinLemmas

section PairRowsLemmas

lemma map_compare_pair_response_value (o n : Option NormalizedRecord) :
    map_compare_pair_response o n = .ok (map_compare_pair_value o n) := by
  rw [map_compare_pair_response_eq, map_compare_pair_value_eq]

lemma pairRows_eq (valid : List NormalizedRecord) (sc ec : PyVal) :
    pairRows valid sc ec = .ok ((allCombinations valid).map (fun c =>
      map_compare_pair_value
        ((lookupGroup (buildGroups valid) (c.1, c.2, sc)).bind List.head?)
        ((lookupGroup (buildGroups valid) (c.1, c.2, ec)).bind List.head?))) := by
  unfold pairRows
  exact list_mapM_ok (fun c => map_compare_pair_response_value _ _) _

lemma mcp_selfpair (d : Option NormalizedRecord) :
    ∀ f ∈ arrowFields, ∃ x, f (mcpRow d d) = x ++ "→" ++ x := by
  intro f hf
  simp only [arrowFields, List.mem_cons, List.not_mem_nil, or_false] at hf
  rcases hf with rfl | rfl | rfl | rfl | rfl | rfl | rfl | rfl | rfl | rfl | rfl | rfl <;>
    exact ⟨_, rfl⟩

end PairRowsLemmas

section ClaimTheorems

/-- C1: for the record set containing, for model `"Qwen3-8B"` with
`request_rate 16` and `tp 1`, a record with commit `"c1"` at derived epoch
100 with `mean_e2el_ms = 1000` and a record with commit `"c2"` at epoch 200
with `mean_e2el_ms = 2000`, the comparison pipeline invoked with
`startTime = 100` and `endTime = 200` returns exactly one row, for the
combination `("Qwen3-8B", 16)`, whose `latency_s` is `"1.00→2.00"`. -/
theorem claim_C1_scenario :
    (process_data_details_compare_response [c1source1, c1source2] 100 200).map
      (fun rows => rows.map (fun m => (m.name, m.request_rate, m.latency_s))) =
    .ok [("Qwen3-8B", some 16, "1.00→2.00")] := by
  with_unfolding_all decide

/-- C2: for every non-empty record list `v :: vs` and targets, the start
commit is the commit id of the first record minimizing
`|time_stamp - target_start|` (every earlier record is strictly farther,
every record at least as far); when `target_start = target_end` the end
commit is the start commit; otherwise it is resolved independently the same
way against `target_end`; and when the valid record list is empty the
pipeline returns the empty result. -/
theorem claim_C2_commit_resolution (v : NormalizedRecord) (vs : List NormalizedRecord)
    (ts te : ℤ) :
    (∃ pre post, v :: vs = pre ++ minByDist ts v vs :: post ∧
      resolveStartCommit ts v vs = (minByDist ts v vs).commit_id ∧
      (∀ a ∈ pre, |(minByDist ts v vs).time_stamp - ts| < |a.time_stamp - ts|) ∧
      (∀ r ∈ v :: vs, |(minByDist ts v vs).time_stamp - ts| ≤ |r.time_stamp - ts|)) ∧
    (ts = te → resolveEndCommit ts te v vs = resolveStartCommit ts v vs) ∧
    (ts ≠ te →
      resolveEndCommit ts te v vs = (minByDist te v vs).commit_id ∧
      ∃ pre post, v :: vs = pre ++ minByDist te v vs :: post ∧
        (∀ a ∈ pre, |(minByDist te v vs).time_stamp - te| < |a.time_stamp - te|) ∧
        (∀ r ∈ v :: vs, |(minByDist te v vs).time_stamp - te| ≤ |r.time_stamp - te|)) ∧
    (∀ hits : List Source, collectValid hits = .ok [] →
      process_data_details_compare_response hits ts te = .ok []) := by
  refine ⟨?_, ?_, ?_, ?_⟩
  · obtain ⟨pre, post, h1, h2, h3⟩ := minByDist_spec ts vs v
    exact ⟨pre, post, h1, rfl, h2, h3⟩
  · intro h
    unfold resolveEndCommit
    rw [if_pos h]
  · intro h
    refine ⟨?_, minByDist_spec te vs v⟩
    unfold resolveEndCommit
    rw [if_neg h]
  · intro hits hc
    unfold process_data_details_compare_response
    split
    · rename_i e heq
      rw [hc] at heq
      exact absurd heq (by simp)
    · rfl
    · rename_i v' vs' heq
      rw [hc] at heq
      injection heq with h'
      exact absurd h' (by simp)

/-- C2 witness: applying the resolution theorem at a concrete two-record
list with equal and with distinct targets. -/
theorem claim_C2_witness :
    resolveEndCommit 100 100 (mkRec "c1" 100) [mkRec "c2" 200] =
      resolveStartCommit 100 (mkRec "c1" 100) [mkRec "c2" 200] ∧
    process_data_details_compare_response [] 100 200 = .ok [] :=
  ⟨(claim_C2_commit_resolution (mkRec "c1" 100) [mkRec "c2" 200] 100 100).2.1 rfl,
   (claim_C2_commit_resolution (mkRec "c1" 100) [mkRec "c2" 200] 100 200).2.2.2 [] rfl⟩

/-- C5 (code bug): a hit whose `merged_at` is the integer `100` passes
every sentinel screen, and `strptime` then raises an uncaught `TypeError`
(the source catches only `ValueError`), so the whole request aborts instead
of skipping the record. -/
theorem claim_C5_nonstring_merged_at_raises :
    normalizeOne badMergedAtSource = .error .typeError ∧
    process_data_details_compare_response [badMergedAtSource] 100 100 =
      .error .typeError := by
  exact ⟨by decide, by decide⟩

/-- C10: a record whose `merged_at` parses to exactly epoch 0 is dropped by
the `if not time_stamp` truthiness test even when every required field is
present and non-sentinel, so it contributes nothing to the pipeline. -/
theorem claim_C10_epoch_zero_dropped (src : Source) (mn : PyVal) (s : String)
    (hmn : src.model_name = some mn) (hmns : ¬(mn = .vStr "" ∨ mn = .vStr "null"))
    (hma : src.merged_at = some (.vStr s)) (hs0 : s ≠ "")
    (hparse : parseDatetimeStr s = some 0)
    (rv : PyVal) (hrr : src.request_rate = some rv)
    (hrrs : ¬(rv = .vStr "" ∨ rv = .vStr "null"))
    (q : ℚ) (hq : pyFloatOf rv = some q) (hden : q.den = 1)
    (cid : PyVal) (hcid : src.commit_id = some cid)
    (hcids : ¬(cid = .vStr "" ∨ cid = .vStr "null"))
    (tpv : PyVal) (htp : src.tp = some tpv)
    (htps : ¬(tpv = .vStr "" ∨ tpv = .vStr "null"))
    (tq : ℚ) (htq : PyVal.toNum tpv = some tq) :
    normalizeOne src = .ok none ∧
    ∀ rest : List Source, collectValid (src :: rest) = collectValid rest := by
  have hsnull : s ≠ "null" := by
    intro h
    rw [h] at hparse
    exact absurd hparse (by decide)
  have hsent : ¬((PyVal.vStr s) = .vStr "" ∨ (PyVal.vStr s) = .vStr "null") := by
    rintro (h | h) <;> injection h with h'
    · exact hs0 h'
    · exact hsnull h'
  have htr : PyVal.truthy (some (.vStr s)) = true := by
    simp [PyVal.truthy, hs0]
  have hconv : _convert_datetime_to_timestamp (some (.vStr s)) = .ok (some 0) := by
    unfold _convert_datetime_to_timestamp
    rw [htr]
    simp [hparse]
  have h1 : normalizeOne src = .ok none := by
    unfold normalizeOne
    rw [hmn]
    simp only [hmns, if_false]
    rw [hma]
    simp only [hsent, if_false]
    rw [hrr]
    simp only [hrrs, if_false]
    rw [hq]
    simp only [hden, ne_eq, not_true_eq_false, if_false]
    rw [hcid]
    simp only [hcids, if_false]
    rw [htp]
    simp only [htps, if_false]
    rw [htq]
    simp [hconv]
  refine ⟨h1, ?_⟩
  intro rest
  cases h2 : collectValid rest with
  | error e => simp only [collectValid, h1, h2]
  | ok rs => simp only [collectValid, h1, h2]

/-- C10 witness: the concrete record at `"1970-01-01T00:00:00"` is dropped. -/
theorem claim_C10_witness :
    normalizeOne epoch0Source = .ok none ∧
    collectValid [epoch0Source] = collectValid [] := by
  have h := claim_C10_epoch_zero_dropped epoch0Source (.vStr "m") "1970-01-01T00:00:00"
    rfl (by decide) rfl (by decide) (by decide)
    (.vInt 16) rfl (by decide)
    16 rfl (by with_unfolding_all decide)
    (.vStr "c") rfl (by decide)
    (.vInt 1) rfl (by decide)
    1 rfl
  exact ⟨h.1, h.2 []⟩

/-- C3: for every valid record set and resolved commits, the pre-filter
pairing result is exactly one row per distinct `(model, rate)` combination
of the valid records (the combination list is duplicate-free and its
members are exactly the combinations occurring in the valid records), each
row built from the first-encountered record of the
`(model, rate, start_commit)` and `(model, rate, end_commit)` groups — with
absent sides allowed and no exception possible; records with a sentinel or
non-integral `request_rate` never become valid records in the first place. -/
theorem claim_C3_grouping (valid : List NormalizedRecord) (sc ec : PyVal)
    (hm : ∀ x ∈ valid, PyVal.isSentinel (some x.model_name) = false) :
    (pairRows valid sc ec = .ok ((allCombinations valid).map (fun c =>
      map_compare_pair_value
        (valid.find? (fun x => decide (recordKey x = (c.1, c.2, sc))))
        (valid.find? (fun x => decide (recordKey x = (c.1, c.2, ec))))))) ∧
    (allCombinations valid).Nodup ∧
    (∀ c, c ∈ allCombinations valid ↔ ∃ x ∈ valid, (x.model_name, x.request_rate) = c) ∧
    (∀ src : Source, PyVal.isSentinel src.request_rate = true →
      normalizeOne src = .ok none) ∧
    (∀ (src : Source) (rv : PyVal), src.request_rate = some rv →
      (∀ q, pyFloatOf rv = some q → q.den ≠ 1) → normalizeOne src = .ok none) ∧
    (∀ (src : Source) (r : NormalizedRecord), normalizeOne src = .ok (some r) →
      PyVal.isSentinel (some r.model_name) = false) := by
  refine ⟨?_, allCombinations_nodup valid, fun c => allCombinations_mem valid c hm, ?_, ?_, ?_⟩
  · rw [pairRows_eq]
    simp only [lookupGroup_head]
  · intro src hsent
    unfold normalizeOne
    cases hmn : src.model_name with
    | none => rfl
    | some mn =>
      by_cases h1 : mn = .vStr "" ∨ mn = .vStr "null"
      · simp [h1]
      · simp only [h1, if_false]
        cases hma : src.merged_at with
        | none => rfl
        | some ma =>
          by_cases h2 : ma = .vStr "" ∨ ma = .vStr "null"
          · simp [h2]
          · simp only [h2, if_false]
            cases hrr : src.request_rate with
            | none => rfl
            | some rv =>
              have hso : rv = .vStr "" ∨ rv = .vStr "null" := by
                rw [hrr] at hsent
                cases rv with
                | vStr s =>
                  simp only [PyVal.isSentinel, Bool.or_eq_true, decide_eq_true_eq] at hsent
                  rcases hsent with h | h
                  · exact .inl (by rw [h])
                  · exact .inr (by rw [h])
                | vInt k => simp [PyVal.isSentinel] at hsent
                | vFloat qq => simp [PyVal.isSentinel] at hsent
              simp [hso]
  · intro src rv hrr hni
    unfold normalizeOne
    cases hmn : src.model_name with
    | none => rfl
    | some mn =>
      by_cases h1 : mn = .vStr "" ∨ mn = .vStr "null"
      · simp [h1]
      · simp only [h1, if_false]
        cases hma : src.merged_at with
        | none => rfl
        | some ma =>
          by_cases h2 : ma = .vStr "" ∨ ma = .vStr "null"
          · simp [h2]
          · simp only [h2, if_false]
            cases hrr2 : src.request_rate with
            | none => rfl
            | some rv2 =>
              have hrv : rv2 = rv := by
                rw [hrr2] at hrr
                injection hrr with h'
              subst hrv
              by_cases h3 : rv2 = .vStr "" ∨ rv2 = .vStr "null"
              · simp [h3]
              · simp only [h3, if_false]
                cases hq : pyFloatOf rv2 with
                | none => rfl
                | some q => simp [hq, hni q hq]
  · intro src r h
    unfold normalizeOne at h
    cases hmn : src.model_name with
    | none => rw [hmn] at h; exact absurd h (by simp)
    | some mn =>
      simp only [hmn] at h
      by_cases h1 : mn = .vStr "" ∨ mn = .vStr "null"
      · rw [if_pos h1] at h; exact absurd h (by simp)
      · rw [if_neg h1] at h
        cases hma : src.merged_at with
        | none => rw [hma] at h; exact absurd h (by simp)
        | some ma =>
          simp only [hma] at h
          by_cases h2 : ma = .vStr "" ∨ ma = .vStr "null"
          · rw [if_pos h2] at h; exact absurd h (by simp)
          · rw [if_neg h2] at h
            cases hrr : src.request_rate with
            | none => rw [hrr] at h; exact absurd h (by simp)
            | some rv =>
              simp only [hrr] at h
              by_cases h3 : rv = .vStr "" ∨ rv = .vStr "null"
              · rw [if_pos h3] at h; exact absurd h (by simp)
              · rw [if_neg h3] at h
                cases hq : pyFloatOf rv with
                | none => rw [hq] at h; exact absurd h (by simp)
                | some q =>
                  simp only [hq] at h
                  by_cases h4 : q.den ≠ 1
                  · rw [if_pos h4] at h; exact absurd h (by simp)
                  · rw [if_neg h4] at h
                    cases hcid : src.commit_id with
                    | none => rw [hcid] at h; exact absurd h (by simp)
                    | some cid =>
                      simp only [hcid] at h
                      by_cases h5 : cid = .vStr "" ∨ cid = .vStr "null"
                      · rw [if_pos h5] at h; exact absurd h (by simp)
                      · rw [if_neg h5] at h
                        cases htp : src.tp with
                        | none => rw [htp] at h; exact absurd h (by simp)
                        | some tpv =>
                          simp only [htp] at h
                          by_cases h6 : tpv = .vStr "" ∨ tpv = .vStr "null"
                          · rw [if_pos h6] at h; exact absurd h (by simp)
                          · rw [if_neg h6] at h
                            cases htq : PyVal.toNum tpv with
                            | none => rw [htq] at h; exact absurd h (by simp)
                            | some tq =>
                              simp only [htq] at h
                              cases hconv : _convert_datetime_to_timestamp (some ma) with
                              | error e => rw [hconv] at h; exact absurd h (by simp)
                              | ok ts? =>
                                cases ts? with
                                | none => rw [hconv] at h; exact absurd h (by simp)
                                | some ts =>
                                  simp only [hconv] at h
                                  by_cases h7 : ts = 0
                                  · rw [if_pos h7] at h; exact absurd h (by simp)
                                  · rw [if_neg h7] at h
                                    injection h with h'
                                    injection h' with h''
                                    rw [← h'']
                                    cases mn with
                                    | vInt n => rfl
                                    | vFloat qq => rfl
                                    | vStr s =>
                                      have hs1 : s ≠ "" := fun hh =>
                                        (not_or.mp h1).1 (by rw [hh])
                                      have hs2 : s ≠ "null" := fun hh =>
                                        (not_or.mp h1).2 (by rw [hh])
                                      simp [PyVal.isSentinel, hs1, hs2]

/-- C3 witness: the theorem applied at a concrete one-record list. -/
theorem claim_C3_witness :
    (allCombinations [mkRec "c" 100]).Nodup :=
  (claim_C3_grouping [mkRec "c" 100] (.vStr "c") (.vStr "c") (by
    intro x hx
    have hx' : x = mkRec "c" 100 := by simpa using hx
    rw [hx']
    decide)).2.1

/-- C9: whenever the pipeline is invoked with `startTime = endTime` and
succeeds, every arrow-paired metric field of every output row is a
self-pair `x ++ "→" ++ x` (both sides render the same single commit value,
or `"null"` twice). -/
theorem claim_C9_selfpairs (hits : List Source) (t : ℤ) (rows : List MetricPair)
    (h : process_data_details_compare_response hits t t = .ok rows) :
    ∀ m ∈ rows, ∀ f ∈ arrowFields, ∃ x, f m = x ++ "→" ++ x := by
  unfold process_data_details_compare_response at h
  split at h
  · exact absurd h (by simp)
  · have hrows : rows = [] := by
      injection h with h'
      exact h'.symm
    simp [hrows]
  · rename_i v vs heq
    split at h
    · have hrows : rows = [] := by
        injection h with h'
        exact h'.symm
      simp [hrows]
    · split at h
      · exact absurd h (by simp)
      · rename_i result hpair
        intro m hm
        have hmem := List.mem_of_mem_filter (pySortedRows_mem h m hm)
        have hend : resolveEndCommit t t v vs = resolveStartCommit t v vs := by
          unfold resolveEndCommit
          rw [if_pos rfl]
        rw [hend, pairRows_eq] at hpair
        injection hpair with h'
        rw [← h'] at hmem
        obtain ⟨c, _, rfl⟩ := List.mem_map.mp hmem
        rw [map_compare_pair_value_eq]
        exact mcp_selfpair _

/-- C9 witness: the theorem applied to the concrete one-record pipeline run
with equal start and end times. -/
theorem claim_C9_witness :
    ∃ rows, process_data_details_compare_response [c1source1] 100 100 = .ok rows ∧
      ∀ m ∈ rows, ∀ f ∈ arrowFields, ∃ x, f m = x ++ "→" ++ x := by
  cases hp : process_data_details_compare_response [c1source1] 100 100 with
  | ok rows => exact ⟨rows, rfl, claim_C9_selfpairs [c1source1] 100 rows hp⟩
  | error e =>
    have hok : (process_data_details_compare_response [c1source1] 100 100).isOk = true := by
      with_unfolding_all decide
    rw [hp] at hok
    exact absurd hok (by simp [Except.isOk, Except.toBool])

/-- C4 counterexample: a list of two MetricPairs both kept by the final
filter — one with a sentinel name (kept because its `tensor_parallel` is
valid), one with a real name — on which the sort comparison mixes a string
with `float("inf")` and raises `TypeError`: the sort is not total on every
list of MetricPairs. -/
theorem claim_C4_counterexample :
    keepRow cxRowA = true ∧ keepRow cxRowB = true ∧
    pySortedRows [cxRowA, cxRowB] = .error .typeError := by
  exact ⟨by decide, by decide, by with_unfolding_all decide⟩

/-- C4 (amended): the final filter drops exactly the rows whose `name`,
`tensor_parallel` and `request_rate` are all sentinel, and for every list
of rows of the shape the pairing stage produces the sort succeeds, is a
permutation of the kept rows, is sorted ascending by
`(name, tensor_parallel as number, request_rate as number)` with sentinels
as `+∞`, and is stable (rows with equal sort keys keep their prior order). -/
theorem claim_C4_filter_sort (l : List MetricPair) (h : ∀ m ∈ l, rowGood m) :
    ∃ out, pySortedRows (l.filter keepRow) = .ok out ∧
      out.Perm (l.filter keepRow) ∧
      (∀ m ∈ out, keepRow m = true) ∧
      (∀ m : MetricPair, keepRow m = false ↔
        (strSentinel m.name = true ∧ strSentinel m.tensor_parallel = true ∧
          m.request_rate = none)) ∧
      List.Pairwise (fun a b => ∀ ka kb, sortKeyOf a = .ok ka → sortKeyOf b = .ok kb →
        skeyLe ka kb = true) out ∧
      (∀ a b : MetricPair, [a, b].Sublist (l.filter keepRow) → sortKeyOf a = sortKeyOf b →
        [a, b].Sublist out) := by
  have hkeep_iff : ∀ m : MetricPair, keepRow m = false ↔
      (strSentinel m.name = true ∧ strSentinel m.tensor_parallel = true ∧
        m.request_rate = none) := by
    intro m
    unfold keepRow
    simp [and_assoc]
  have hgoodkept : ∀ m ∈ l.filter keepRow,
      strSentinel m.name = false ∧
        (strSentinel m.tensor_parallel = true ∨ (parseFloatStr m.tensor_parallel).isSome = true) := by
    intro m hm
    have hgood := h m (List.mem_of_mem_filter hm)
    have hkeep : keepRow m = true := List.of_mem_filter hm
    rcases hgood with ⟨h1, h2, h3⟩ | ⟨h1, h2⟩
    · have hfalse : keepRow m = false := (hkeep_iff m).mpr ⟨h1, h2, h3⟩
      rw [hfalse] at hkeep
      exact Bool.noConfusion hkeep
    · exact ⟨h1, h2⟩
  have hkeysome : ∀ m ∈ l.filter keepRow, ∃ k, sortKeyOf m = .ok k := by
    intro m hm
    obtain ⟨_, h2⟩ := hgoodkept m hm
    by_cases htp : strSentinel m.tensor_parallel = true
    · exact ⟨_, by unfold sortKeyOf; rw [if_pos htp]⟩
    · rcases h2 with h2 | h2
      · exact absurd h2 htp
      · obtain ⟨q, hq⟩ := Option.isSome_iff_exists.mp h2
        refine ⟨(nameKeyOf m, (q : WithTop ℚ), rateKeyOf m), ?_⟩
        unfold sortKeyOf
        rw [if_neg htp, hq]
  have hktop : ∀ (m : MetricPair) (k : SKeyT), sortKeyOf m = .ok k → k.1 = nameKeyOf m := by
    intro m k hk
    unfold sortKeyOf at hk
    split at hk
    · injection hk with h'
      rw [← h']
    · split at hk
      · injection hk with h'
        rw [← h']
      · exact absurd hk (by simp)
  have hnkne : ∀ m ∈ l.filter keepRow, nameKeyOf m ≠ ⊤ := by
    intro m hm
    obtain ⟨h1, _⟩ := hgoodkept m hm
    simp [nameKeyOf, h1]
  obtain ⟨keyed, hmapM, _⟩ :=
    list_mapM_ok_exists (l := l.filter keepRow)
      (f := fun m => (sortKeyOf m).map (fun k => (m, k)))
      (by
        intro x hx
        obtain ⟨k, hk⟩ := hkeysome x hx
        exact ⟨(x, k), by simp [hk, Except.map]⟩)
  obtain ⟨hfst, hpkeys⟩ := keyedOf hmapM
  have hmemkeyed : ∀ p ∈ keyed, p.1 ∈ l.filter keepRow := by
    intro p hp
    rw [← hfst]
    exact List.mem_map_of_mem _ hp
  have hcomp : (keyed.all (fun a => keyed.all (fun b => skeyComparable a.2 b.2))) = true := by
    rw [List.all_eq_true]
    intro a ha
    rw [List.all_eq_true]
    intro b hb
    have ha1 := hktop a.1 a.2 (hpkeys a ha)
    have hb1 := hktop b.1 b.2 (hpkeys b hb)
    have hane : a.2.1 ≠ ⊤ := by rw [ha1]; exact hnkne a.1 (hmemkeyed a ha)
    have hbne : b.2.1 ≠ ⊤ := by rw [hb1]; exact hnkne b.1 (hmemkeyed b hb)
    simp only [skeyComparable, decide_eq_true_eq]
    exact .inr ⟨hane, hbne⟩
  have htrans : ∀ (a b c : MetricPair × SKeyT), skeyLe a.2 b.2 = true →
      skeyLe b.2 c.2 = true → skeyLe a.2 c.2 = true :=
    fun a b c hab hbc => skeyLe_trans _ _ _ hab hbc
  have htotal : ∀ (a b : MetricPair × SKeyT), (skeyLe a.2 b.2 || skeyLe b.2 a.2) = true :=
    fun a b => skeyLe_total _ _
  refine ⟨(keyed.mergeSort (fun a b => skeyLe a.2 b.2)).map Prod.fst, ?_, ?_, ?_, hkeep_iff,
    ?_, ?_⟩
  · simp only [pySortedRows, hmapM]
    rw [if_pos hcomp]
  · have hperm := List.Perm.map Prod.fst
      (List.mergeSort_perm keyed (fun a b => skeyLe a.2 b.2))
    rw [hfst] at hperm
    exact hperm
  · intro m hm
    obtain ⟨p, hp, rfl⟩ := List.mem_map.mp hm
    exact List.of_mem_filter (hmemkeyed p (List.mem_mergeSort.mp hp))
  · have hsorted := List.sorted_mergeSort htrans htotal keyed
    rw [List.pairwise_map]
    refine List.Pairwise.imp_of_mem ?_ hsorted
    intro a b ha hb hle ka kb hka hkb
    have h1 : sortKeyOf a.1 = .ok a.2 := hpkeys a (List.mem_mergeSort.mp ha)
    have h2 : sortKeyOf b.1 = .ok b.2 := hpkeys b (List.mem_mergeSort.mp hb)
    rw [h1] at hka
    rw [h2] at hkb
    injection hka with e1
    injection hkb with e2
    rw [← e1, ← e2]
    exact hle
  · intro a b hsub heqk
    rw [← hfst] at hsub
    obtain ⟨l2, hl2sub, hl2map⟩ := List.sublist_map_iff.mp hsub
    cases l2 with
    | nil => exact absurd hl2map (by simp)
    | cons pa l3 =>
      cases l3 with
      | nil => exact absurd hl2map (by simp)
      | cons pb l4 =>
        cases l4 with
        | cons _ _ => exact absurd hl2map (by simp)
        | nil =>
          obtain ⟨haa, hbb⟩ : a = pa.1 ∧ b = pb.1 := by simpa using hl2map
          have h1 := hpkeys pa (hl2sub.subset (by simp))
          have h2 := hpkeys pb (hl2sub.subset (by simp))
          have hk : pa.2 = pb.2 := by
            rw [haa, hbb] at heqk
            rw [h1, h2] at heqk
            injection heqk
          have hpair : List.Pairwise (fun x y => skeyLe x.2 y.2 = true) [pa, pb] := by
            refine List.pairwise_cons.mpr ⟨?_, List.pairwise_singleton _ _⟩
            intro y hy
            have hy' : y = pb := by simpa using hy
            rw [hy', ← hk]
            exact skeyLe_refl _
          have hsub2 := List.sublist_mergeSort htrans htotal hpair hl2sub
          have hmap2 := hsub2.map Prod.fst
          rw [haa, hbb]
          exact hmap2

/-- C4 witness: the theorem applied to a concrete singleton list. -/
theorem claim_C4_witness :
    pySortedRows ([cxRowB].filter keepRow) = .ok [cxRowB] := by
  obtain ⟨out, hok, hperm, _⟩ := claim_C4_filter_sort [cxRowB] (by
    intro m hm
    have hm' : m = cxRowB := by simpa using hm
    rw [hm']
    exact .inr ⟨by decide, .inr (by with_unfolding_all decide)⟩)
  have hfilter : [cxRowB].filter keepRow = [cxRowB] := by decide
  rw [hfilter] at hok hperm
  rw [List.perm_singleton.mp hperm] at hok
  exact hok

/-- C6 counterexample: a bag whose four required keys are valid and that
satisfies none of the four failure conditions, but has no `size` key —
`params["size"]` raises `KeyError`, so the validator neither succeeds nor
fails with a message. -/
theorem claim_C6_counterexample :
    check_input_params pNoSize = .error .keyError ∧
    missingKeys pNoSize = [] ∧ splitModels "a" ≠ [] ∧
    (0 : ℤ) ∈ ([0, 1, 2] : List ℤ) ∧ (100 : ℤ) ≤ 200 := by
  exact ⟨by decide, by decide, by decide, by decide, by decide⟩

/-- C6 (amended): on every parameter bag whose `size` key is present,
`check_input_params` fails with a message naming the offending parameter
exactly when a required key is absent or null, the split-and-trimmed model
list is empty, the engine version is outside `{0,1,2}`, or
`startTime > endTime`; on every other such bag it succeeds with the
normalized parameter struct (models split on commas and trimmed).  (When
`size` is absent the function instead raises `KeyError`.) -/
theorem claim_C6_validation (p : RawParams) (hsz : p.size ≠ none) :
    (missingKeys p ≠ [] →
      check_input_params p =
        .ok (false, "缺失必填参数：" ++ joinComma (missingKeys p), none)) ∧
    (∀ (st et : ℤ) (ms : String) (ev : ℤ),
      p.startTime = some (some st) → p.endTime = some (some et) →
      p.models = some (some ms) → p.engineVersion = some (some ev) →
      ((splitModels ms = [] →
          check_input_params p = .ok (false, "models参数不可为空（或仅含分隔符）", none)) ∧
       (splitModels ms ≠ [] → ev ∉ ([0, 1, 2] : List ℤ) →
          check_input_params p =
            .ok (false, "engineVersion无效：" ++ zStr ev ++ "，仅支持0/1/2", none)) ∧
       (splitModels ms ≠ [] → ev ∈ ([0, 1, 2] : List ℤ) → st > et →
          check_input_params p = .ok (false, "时间范围无效：startTime > endTime", none)) ∧
       (splitModels ms ≠ [] → ev ∈ ([0, 1, 2] : List ℤ) → st ≤ et →
          ∃ sz, check_input_params p =
            .ok (true, "", some ⟨st, et, splitModels ms, ev, sz⟩)))) := by
  constructor
  · intro hmiss
    unfold check_input_params
    rw [if_pos hmiss]
  · intro st et ms ev h1 h2 h3 h4
    have hmiss : missingKeys p = [] := by
      simp [missingKeys, keyMissing, h1, h2, h3, h4]
    cases hszv : p.size with
    | none => exact absurd hszv hsz
    | some szv =>
      refine ⟨?_, ?_, ?_, ?_⟩
      · intro hml
        simp [check_input_params, hmiss, h1, h2, h3, h4, hml]
      · intro hml hev
        simp [check_input_params, hmiss, h1, h2, h3, h4, hszv, hml, hev]
      · intro hml hev hgt
        simp [check_input_params, hmiss, h1, h2, h3, h4, hszv, hml, hev, hgt]
      · intro hml hev hle
        refine ⟨(match szv with | none => ES_MAX_RESULT_SIZE | some v => v), ?_⟩
        simp [check_input_params, hmiss, h1, h2, h3, h4, hszv, hml, hev, not_lt.mpr hle]
        cases szv <;> rfl

/-- C6 witness: a fully valid bag with a null `size` key validates. -/
theorem claim_C6_witness :
    ∃ sz, check_input_params pOk =
      .ok (true, "", some ⟨100, 200, splitModels "a,b", 1, sz⟩) :=
  (((claim_C6_validation pOk (by decide)).2) 100 200 "a,b" 1 rfl rfl rfl rfl).2.2.2
    (by decide) (by decide) (by decide)

/-- C7 counterexample: a supplied `size` of 20000 is returned unchanged —
the validator never clamps to the 10000 page maximum. -/
theorem claim_C7_counterexample :
    check_input_params pBig = .ok (true, "", some ⟨100, 200, ["a"], 1, 20000⟩) ∧
    ¬((20000 : ℤ) ≤ ES_MAX_RESULT_SIZE) := by
  exact ⟨by decide, by decide⟩

/-- C7 (amended): on an otherwise-valid bag whose `size` key is present,
the returned size is 10000 exactly when the supplied `size` is null, and a
supplied non-null `size` is returned unchanged (no clamping). -/
theorem claim_C7_size_default (p : RawParams) (st et : ℤ) (ms : String) (ev : ℤ)
    (h1 : p.startTime = some (some st)) (h2 : p.endTime = some (some et))
    (h3 : p.models = some (some ms)) (h4 : p.engineVersion = some (some ev))
    (hml : splitModels ms ≠ []) (hev : ev ∈ ([0, 1, 2] : List ℤ)) (hle : st ≤ et) :
    (p.size = some none →
      check_input_params p =
        .ok (true, "", some ⟨st, et, splitModels ms, ev, ES_MAX_RESULT_SIZE⟩)) ∧
    (∀ v : ℤ, p.size = some (some v) →
      check_input_params p = .ok (true, "", some ⟨st, et, splitModels ms, ev, v⟩)) := by
  have hmiss : missingKeys p = [] := by
    simp [missingKeys, keyMissing, h1, h2, h3, h4]
  constructor
  · intro hszv
    simp [check_input_params, hmiss, h1, h2, h3, h4, hszv, hml, hev, not_lt.mpr hle]
  · intro v hszv
    simp [check_input_params, hmiss, h1, h2, h3, h4, hszv, hml, hev, not_lt.mpr hle]

/-- C7 witness: a null `size` defaults to 10000, and the amended theorem
applies at a concrete valid bag. -/
theorem claim_C7_witness :
    check_input_params pOk =
      .ok (true, "", some ⟨100, 200, splitModels "a,b", 1, ES_MAX_RESULT_SIZE⟩) :=
  (claim_C7_size_default pOk 100 200 "a,b" 1 rfl rfl rfl rfl (by decide) (by decide)
    (by decide)).1 rfl

/-- C8 counterexample: an engine version of `0` and a start bound of epoch
`0` are both given, yet the built query is `match_all` — no engine or
timestamp clause is added, because the source tests Python truthiness
rather than presence. -/
theorem claim_C8_counterexample :
    build_es_query none (some (.vInt 0)) (some 0) none = .matchAll ∧
    (some (PyVal.vInt 0)).isSome = true ∧ (some (0 : ℤ)).isSome = true := by
  exact ⟨by decide, rfl, rfl⟩

/-- C8 (amended): the built query is a conjunction containing a model
in-set clause iff a non-empty model list is given, an engine-version
clause iff a truthy engine version is given (`0` and `""` yield none), and
a merged_at range clause (with the epoch bounds rendered in the store
timestamp format) iff at least one truthy (nonzero) bound is given; it is
`match_all` exactly when no clause applies. -/
theorem claim_C8_query_builder (mn : Option (List String)) (ev : Option PyVal)
    (st et : Option ℤ) :
    (hasClause (build_es_query mn ev st et) (.terms "source.model_name" (mn.getD [])) ↔
      ∃ l, mn = some l ∧ l ≠ []) ∧
    (hasClause (build_es_query mn ev st et)
        (.term "source.engine_version" (ev.getD (.vInt 0))) ↔ PyVal.truthy ev = true) ∧
    (hasClause (build_es_query mn ev st et)
        (.range "source.merged_at"
          (if intTruthy st then some (epochToEsStr (st.getD 0)) else none)
          (if intTruthy et then some (epochToEsStr (et.getD 0)) else none)) ↔
      (intTruthy st || intTruthy et) = true) ∧
    (build_es_query mn ev st et = .matchAll ↔
      ¬(∃ l, mn = some l ∧ l ≠ []) ∧ PyVal.truthy ev = false ∧
        (intTruthy st || intTruthy et) = false) := by
  by_cases hev : PyVal.truthy ev = true
  · by_cases hor : (intTruthy st || intTruthy et) = true
    · cases mn with
      | none => simp [build_es_query, hasClause, hev, hor]
      | some l =>
        by_cases hl : l = []
        · simp [build_es_query, hasClause, hev, hor, hl]
        · simp [build_es_query, hasClause, hev, hor, hl]
    · cases mn with
      | none => simp [build_es_query, hasClause, hev, hor]
      | some l =>
        by_cases hl : l = []
        · simp [build_es_query, hasClause, hev, hor, hl]
        · simp [build_es_query, hasClause, hev, hor, hl]
  · by_cases hor : (intTruthy st || intTruthy et) = true
    · cases mn with
      | none => simp [build_es_query, hasClause, hev, hor]
      | some l =>
        by_cases hl : l = []
        · simp [build_es_query, hasClause, hev, hor, hl]
        · simp [build_es_query, hasClause, hev, hor, hl]
    · cases mn with
      | none => simp [build_es_query, hasClause, hev, hor]
      | some l =>
        by_cases hl : l = []
        · simp [build_es_query, hasClause, hev, hor, hl]
        · simp [build_es_query, hasClause, hev, hor, hl]

/-- C8 witness: the amended theorem applied at a concrete call. -/
theorem claim_C8_witness :
    hasClause (build_es_query (some ["m"]) (some (.vStr "1")) (some 100) none)
      (.terms "source.model_name" ["m"]) :=
  (claim_C8_query_builder (some ["m"]) (some (.vStr "1")) (some 100) none).1.mpr
    ⟨["m"], rfl, by decide⟩

end ClaimTheorems

example : parseDatetimeStr "1970-01-01T00:01:40" = some 100 := by decide
example : parseDatetimeStr "1970-01-01T00:00:00" = some 0 := by decide
example : parseDatetimeStr "2025-10-02T00:00:00" = some 1759363200 := by decide
example : parseDatetimeStr "2025/10/02T00:00:00" = none := by decide
example : parseDatetimeStr "2025-10-02T00:00:00.123" = none := by decide
example : parseFloatStr "16.5" = some (33 / 2) := by with_unfolding_all decide
example : parseFloatStr "16" = some 16 := by with_unfolding_all decide
example : parseFloatStr "abc" = none := by decide
example : parseIntStr "16" = some 16 := by decide
example : fmtFixed 2 1 = "1.00" := by with_unfolding_all decide
example : fmtFixed 2 (474 / 10 / 1000 : ℚ) = "0.05" := by with_unfolding_all decide
example : fmtFixed 0 16 = "16" := by with_unfolding_all decide
example : epochToEsStr 100 = "1970-01-01T00:01:40" := by decide
example : epochToEsStr 1759363200 = "2025-10-02T00:00:00" := by decide
